import Mathlib

/-!
The bluehome_eib bridge between KNX/EIB and MQTT.

A shallow embedding of `src/bluehome_eib.c` and the properties of its address
formatter, device registry, inbound handler and polling loop.

Conventions of the embedding

* C strings are `String` (or `List Char` while `strtok` walks them); a NULL
  pointer is `none`.
* The singly linked `struct device` list is a `List device`; `[]` is the NULL
  list head and the tail `[]` of a cell is `next == NULL`.
* Dereferencing NULL, copying NULL with `strcpy`, and overrunning a fixed
  `char` array are reported as a `fault` outcome.
* `exit(n)` is the outcome `exited n`; the status seen by the parent process
  is `exitStatus n`.
* Everything that lives outside the source file (libc time conversion, the
  eibnetmux client library, the byte order of the host) is collected in the
  structure `Host`; the answers the outside world gives during one poll cycle
  are collected in `CycleInput`.
* Of the text written to the log file only the error messages and the line
  of candidate EIS types are kept, as `Event.log` and `Event.eis_types`.
-/

namespace BluehomeEib

/-! ## Formatting helpers (libc `printf` conversions) -/

/-- Reinterpretation of a 32-bit unsigned value as a C `int`. -/
def asInt32 (u : Nat) : Int :=
  if u % 2 ^ 32 < 2 ^ 31 then Int.ofNat (u % 2 ^ 32) else Int.ofNat (u % 2 ^ 32) - 2 ^ 32

/-- Conversion `%d` of `printf`. -/
def printf_d (i : Int) : String :=
  match i with
  | Int.ofNat n => Nat.repr n
  | Int.negSucc n => "-" ++ Nat.repr (n + 1)

/-- Left padding with `'0'` up to width `w`. -/
def zeroPad (w : Nat) (s : String) : String :=
  String.mk (List.replicate (w - s.length) '0') ++ s

/-- Conversion `%0wd` of `printf`: the sign comes first and counts for the width. -/
def printf_0d (w : Nat) (i : Int) : String :=
  match i with
  | Int.ofNat n => zeroPad w (Nat.repr n)
  | Int.negSucc n => "-" ++ zeroPad (w - 1) (Nat.repr (n + 1))

/-! ## Address formatter -/

/-- Network to host byte order on a 16-bit value: a byte swap on a little-endian
host, the identity on a big-endian one. -/
def ntohs (littleEndian : Bool) (x : Nat) : Nat :=
  if littleEndian then (((x &&& 0xff) <<< 8) ||| ((x >>> 8) &&& 0xff)) else x

/-- Textual form of a physical KNX address, `knx_physical` of the source. -/
def knx_physical (littleEndian : Bool) (phy_addr : Nat) : String :=
  let phy_addr := ntohs littleEndian phy_addr
  let area := (phy_addr &&& 0xf000) >>> 12
  let line := (phy_addr &&& 0x0f00) >>> 8
  let device := phy_addr &&& 0x00ff
  printf_d area ++ "." ++ printf_d line ++ "." ++ printf_d device

/-- Textual form of a KNX group address, `knx_group` of the source. -/
def knx_group (littleEndian : Bool) (grp_addr : Nat) : String :=
  let grp_addr := ntohs littleEndian grp_addr
  let top := (grp_addr &&& 0x7800) >>> 11
  let sub := (grp_addr &&& 0x0700) >>> 8
  let group := grp_addr &&& 0x00ff
  printf_d top ++ "/" ++ printf_d sub ++ "/" ++ printf_d group

/-! ## Data model -/

/-- Record of the device list (`struct device` without its `next` link). -/
structure device where
  knx : String
  name : String
  event : String
  type : String
deriving DecidableEq, Repr

/-- Mirror of `struct config`. `qos` and `timeout` hold the token that the
source hands to `atoi` and `strtol`; the numeric conversion is libc's and no
property here depends on it. -/
structure config where
  address : String
  clientid : String
  username : String
  password : String
  eibd_ip : String
  solar_ip : String
  qos : String
  timeout : String
  devicelist : List device
deriving DecidableEq, Repr

/-- The fields of `CEMIFRAME`; the 16-bit addresses are the values the host
loads from the packed frame, before `ntohs`. -/
structure CEMIFRAME where
  code : Nat
  zero : Nat
  ctrl : Nat
  ntwrk : Nat
  saddr : Nat
  daddr : Nat
  length : Nat
  tpci : Nat
  apci : Nat
  data : List Nat
deriving DecidableEq, Repr

/-- The fields of `struct tm` that the source reads. -/
structure tm where
  tm_sec : Int
  tm_min : Int
  tm_hour : Int
  tm_mday : Int
  tm_mon : Int
  tm_year : Int
deriving DecidableEq, Repr

/-- Error codes that `enmx_geterror` can report; `other` stands for any value
that matches no `case` label of the switch in `main`. -/
inductive EnmxError where
  | ENMX_E_COMMUNICATION
  | ENMX_E_NO_CONNECTION
  | ENMX_E_WRONG_USAGE
  | ENMX_E_NO_MEMORY
  | ENMX_E_INTERNAL
  | ENMX_E_SERVER_ABORTED
  | ENMX_E_TIMEOUT
  | other
deriving DecidableEq, Repr

/-- What `p_val` points at in `msgarrvd`: the local variable that received the
converted value text, or NULL. -/
inductive PVal where
  | null
  | value_byte (text : String)
  | value_integer (text : String)
  | value_int32 (text : String)
  | value_float (text : String)
  | value_char (c : Char)
  | string (text : String)
deriving DecidableEq, Repr

/-- Observable actions of the two control flows. -/
inductive Event where
  | log (format : String)
  | eis_types (candidates : String)
  | publish (topic : String) (payload : String)
  | sleep (secs : Nat)
  | mqtt_connect
  | mqtt_subscribe (filter : String)
  | enmx_open
  | enmx_value2eis (eis : Nat) (p_val : PVal)
  | enmx_write (address : Nat) (len : Nat) (data : List Nat)
  | enmx_close
deriving DecidableEq, Repr

/-- The collaborators outside the source file. -/
structure Host where
  /-- byte order of the machine -/
  littleEndian : Bool
  /-- libc `localtime`; `none` is its NULL result -/
  localtime : Int → Option tm
  /-- value of `*p_int` (32 bits) after `enmx_frame2value (eis, frame, value)` -/
  p_int : Nat → CEMIFRAME → Nat
  /-- the `time_t` read through `p_int` after `enmx_frame2value (4, frame, value)` -/
  p_time : CEMIFRAME → Int
  /-- rendering `%.2f` of `*p_real` after `enmx_frame2value (eis, frame, value)` -/
  p_real : Nat → CEMIFRAME → String
  /-- library `enmx_getaddress` -/
  enmx_getaddress : String → Nat
  /-- library table `enmx_EISsizeKNX` -/
  enmx_EISsizeKNX : Nat → Nat
  /-- library `enmx_value2eis`: the encoded bytes, or `none` for a non-zero return -/
  enmx_value2eis : Nat → PVal → Option (List Nat)

/-- How a control flow ends: it returns to its caller with state `s`, the
process exits, or the behaviour is undefined. -/
inductive Outcome (σ : Type) where
  | done (s : σ) (trace : List Event)
  | exited (arg : Int) (trace : List Event)
  | fault
deriving DecidableEq, Repr

/-- Exit status seen by the parent process for `exit (arg)`. -/
def exitStatus (arg : Int) : Int := arg % 256

/-- Value of `MQTTCLIENT_SUCCESS` in `MQTTClient.h`. -/
def MQTTCLIENT_SUCCESS : Int := 0

/-! ## libc string helpers -/

/-- One call of `strtok` on the text that is left: leading delimiters are
skipped, the token runs up to the next delimiter, and the text after that
delimiter is kept for the next call. `none` is the NULL return; an empty
remainder makes every later call return NULL, as the saved pointer at the
terminating NUL does. -/
def strtok (delims : List Char) (s : List Char) : Option (List Char × List Char) :=
  match s.dropWhile (fun c => delims.contains c) with
  | [] => none
  | c :: cs =>
    some ((c :: cs).takeWhile (fun x => !delims.contains x),
          ((c :: cs).dropWhile (fun x => !delims.contains x)).drop 1)

/-- Copy with `strcpy` of a token into a `char` array of `cap` bytes: `none` when
the token does not fit together with its terminating NUL. A NULL token never
reaches this function: the callers fault on it first. -/
def strcpy (cap : Nat) (src : List Char) : Option String :=
  if src.length < cap then some (String.mk src) else none

/-! ## Configuration file -/

/-- What one line of the configuration file does to `struct config`. -/
inductive LineEffect where
  | nothing
  | ADDRESS (v : String)
  | CLIENTID (v : String)
  | QOS (v : String)
  | TIMEOUT (v : String)
  | USERNAME (v : String)
  | PASSWORD (v : String)
  | SOLAR_IP (v : String)
  | DEVICE (d : device)
  | fault
deriving DecidableEq, Repr

/-- The value part of a `KEY=value` line: `strtok (NULL, "\n")` copied into an
array of `cap` bytes. -/
def lineValue (cap : Nat) (rest : List Char) (k : String → LineEffect) : LineEffect :=
  match strtok ['\n'] rest with
  | none => LineEffect.fault
  | some (v, _) =>
    match strcpy cap v with
    | none => LineEffect.fault
    | some t => k t

/-- The four fields of a `DEVICE=` line, cut by `strtok` at blanks and at the
end of the line, copied into `knx[16]`, `name[64]`, `event[64]`, `type[64]`. -/
def deviceFields (rest : List Char) : Option device :=
  match strtok [' '] rest with
  | none => none
  | some (knx, r1) =>
  match strcpy 16 knx, strtok [' '] r1 with
  | some knx, some (name, r2) =>
    match strcpy 64 name, strtok [' '] r2 with
    | some name, some (event, r3) =>
      match strcpy 64 event, strtok ['\n'] r3 with
      | some event, some (type, _) =>
        match strcpy 64 type with
        | some type => some (device.mk knx name event type)
        | none => none
      | _, _ => none
    | _, _ => none
  | _, _ => none

/-- Body of the `while (fgets ...)` loop of `read_configfile` for one line. -/
def parseLine (line : List Char) : LineEffect :=
  if line.head? = some '#' then LineEffect.nothing
  else
    match strtok ['='] line with
    | none => LineEffect.fault
    | some (token, rest) =>
      if token = "ADDRESS".data then lineValue 1024 rest LineEffect.ADDRESS
      else if token = "CLIENTID".data then lineValue 255 rest LineEffect.CLIENTID
      else if token = "QOS".data then
        match strtok ['\n'] rest with
        | none => LineEffect.fault
        | some (v, _) => LineEffect.QOS (String.mk v)
      else if token = "TIMEOUT".data then
        match strtok ['\n'] rest with
        | none => LineEffect.fault
        | some (v, _) => LineEffect.TIMEOUT (String.mk v)
      else if token = "USERNAME".data then lineValue 255 rest LineEffect.USERNAME
      else if token = "PASSWORD".data then lineValue 255 rest LineEffect.PASSWORD
      else if token = "SOLAR_IP".data then lineValue 255 rest LineEffect.SOLAR_IP
      else if token = "DEVICE".data then
        match deviceFields rest with
        | none => LineEffect.fault
        | some d => LineEffect.DEVICE d
      else LineEffect.nothing

/-- The assignment a line makes; a `DEVICE` record is linked in front of the
list (`newdevice->next = configuration->devicelist`). -/
def applyLine (c : config) : LineEffect → Option config
  | LineEffect.nothing => some c
  | LineEffect.ADDRESS v => some { c with address := v }
  | LineEffect.CLIENTID v => some { c with clientid := v }
  | LineEffect.QOS v => some { c with qos := v }
  | LineEffect.TIMEOUT v => some { c with timeout := v }
  | LineEffect.USERNAME v => some { c with username := v }
  | LineEffect.PASSWORD v => some { c with password := v }
  | LineEffect.SOLAR_IP v => some { c with solar_ip := v }
  | LineEffect.DEVICE d => some { c with devicelist := d :: c.devicelist }
  | LineEffect.fault => none

/-- The loop of `read_configfile` over the lines that `fgets` delivers; `none`
when a line makes the function fault. -/
def read_configfile : List (List Char) → config → Option config
  | [], c => some c
  | line :: lines, c =>
    match applyLine c (parseLine line) with
    | none => none
    | some c1 => read_configfile lines c1

/-- The configuration as `main` sets it up before `read_configfile`. -/
def initialConfig (target : String) : config :=
  { address := "", clientid := "", username := "", password := "", eibd_ip := target,
    solar_ip := "", qos := "", timeout := "", devicelist := [] }

/-! ## Device registry scans -/

/-- The scan of the polling loop,
`while ((strcmp (actual->knx, knxaddres) != 0) && (actual->next)) actual = actual->next;`
started at the list head: the record `actual` points at when the loop stops,
or `none` when the head is NULL and the first `actual->knx` faults. -/
def scanKnx (knxaddres : String) : List device → Option device
  | [] => none
  | d :: rest =>
    if d.knx ≠ knxaddres ∧ rest ≠ [] then scanKnx knxaddres rest else some d

/-- The scan of the inbound handler, the same loop on the `name` field. -/
def scanName (devicename : String) : List device → Option device
  | [] => none
  | d :: rest =>
    if d.name ≠ devicename ∧ rest ≠ [] then scanName devicename rest else some d

/-- Result of a registry lookup: the scan followed by the `strcmp` test that
guards the use of `actual`. -/
inductive Lookup where
  | found (d : device)
  | notFound
  | fault
deriving DecidableEq, Repr

/-- Lookup by group address as the polling loop performs it. -/
def findByGroupAddress (devicelist : List device) (knxaddres : String) : Lookup :=
  match scanKnx knxaddres devicelist with
  | none => Lookup.fault
  | some actual => if actual.knx = knxaddres then Lookup.found actual else Lookup.notFound

/-- Lookup by name as the inbound handler performs it. -/
def findByName (devicelist : List device) (devicename : String) : Lookup :=
  match scanName devicename devicelist with
  | none => Lookup.fault
  | some actual => if actual.name = devicename then Lookup.found actual else Lookup.notFound

/-! ## Inbound handler -/

/-- The four fields `msgarrvd` cuts out of the payload: one `strtok` at the
first colon, then four times a discarded token and a kept token, both cut at
double quotes; the kept tokens go to `devicetype`, `devicename`,
`deviceaction` and `devicevalue`, arrays of 64 bytes. `none` when a `strtok`
returns NULL where `strcpy` needs a source, or when a token overruns. -/
def parsePayload (payload : List Char) : Option (String × String × String × String) :=
  let quote := ['"']
  let keep (rest : List Char) : Option (String × List Char) :=
    match strtok quote rest with
    | none => none
    | some (t, r) =>
      match strcpy 64 t with
      | none => none
      | some v => some (v, r)
  let skip (rest : List Char) : List Char :=
    match strtok quote rest with
    | none => []
    | some (_, r) => r
  let r0 := match strtok [':'] payload with
    | none => []
    | some (_, r) => r
  match keep (skip r0) with
  | none => none
  | some (devicetype, r1) =>
  match keep (skip r1) with
  | none => none
  | some (devicename, r2) =>
  match keep (skip r2) with
  | none => none
  | some (deviceaction, r3) =>
  match keep (skip r3) with
  | none => none
  | some (devicevalue, _) => some (devicetype, devicename, deviceaction, devicevalue)

/-- The locals `eis`, `p_val` and `string` of `msgarrvd`. -/
structure Selection where
  eis : Nat
  p_val : PVal
  string : Option String
deriving DecidableEq, Repr

/-- The six `if (strcmp (deviceaction, ...) == 0)` statements, run in sequence
on the locals; `eis` is not initialised before them, so it starts at the
indeterminate value `uninit_eis`, and `p_val` and `string` start at NULL. -/
def selectAction (uninit_eis : Nat) (deviceaction devicevalue : String) : Selection :=
  let s0 : Selection := { eis := uninit_eis, p_val := PVal.null, string := none }
  let s1 := if deviceaction = "BYTE" then
    { s0 with eis := 1, p_val := PVal.value_byte devicevalue } else s0
  let s2 := if deviceaction = "INT" then
    { s1 with eis := 10, p_val := PVal.value_integer devicevalue } else s1
  let s3 := if deviceaction = "INT32" then
    { s2 with eis := 11, p_val := PVal.value_int32 devicevalue } else s2
  let s4 := if deviceaction = "FLOAT" then
    { s3 with eis := 9, p_val := PVal.value_float devicevalue } else s3
  let s5 := if deviceaction = "CHAR" then
    { s4 with eis := 13, p_val := PVal.value_char (devicevalue.data.headD (Char.ofNat 0)) } else s4
  if deviceaction = "STRING" then
    { s5 with eis := 15, p_val := PVal.string devicevalue, string := some devicevalue } else s5

/-- What the environment answers while `msgarrvd` runs. -/
structure HandlerInput where
  /-- the indeterminate content of the local `eis` at entry (16 bits) -/
  uninit_eis : Nat
  /-- whether `malloc` returns a block -/
  malloc_ok : Bool
  /-- return value of `enmx_write` -/
  write_rc : Int

/-- The handler `msgarrvd` on a message body. The body is copied into
`payload[1024]` and read as a C string: it stops at the first NUL, and the
byte after the copy is taken to be NUL. The result state is the return value. -/
def msgarrvd (h : Host) (configuration : config) (inp : HandlerInput)
    (message : List Char) : Outcome Int :=
  if 1024 ≤ message.length then Outcome.fault
  else
    match parsePayload (message.takeWhile (fun c => c ≠ Char.ofNat 0)) with
    | none => Outcome.fault
    | some (_, devicename, deviceaction, devicevalue) =>
      match scanName devicename configuration.devicelist with
      | none => Outcome.fault
      | some actual =>
        if actual.name = devicename then
          let knxaddress := h.enmx_getaddress actual.knx % 65536
          let sel := selectAction inp.uninit_eis deviceaction devicevalue
          if inp.malloc_ok = false then
            Outcome.exited (-4) [Event.enmx_open, Event.log "Out of memory\n"]
          else
            match h.enmx_value2eis sel.eis sel.p_val with
            | none =>
              Outcome.exited (-5)
                [Event.enmx_open, Event.enmx_value2eis sel.eis sel.p_val,
                 Event.log "Error in value conversion\n"]
            | some data =>
              let len : Option Nat :=
                if sel.eis ≠ 15 then some (h.enmx_EISsizeKNX sel.eis)
                else sel.string.map String.length
              match len with
              | none => Outcome.fault
              | some len =>
                Outcome.done 1
                  ([Event.enmx_open, Event.enmx_value2eis sel.eis sel.p_val,
                    Event.enmx_write knxaddress len data]
                   ++ (if inp.write_rc ≠ 0 then [Event.log "Unable to send command: %s\n"] else [])
                   ++ [Event.enmx_close])
        else Outcome.done 1 []

/-! ## Polling loop -/

/-- What the environment answers during one pass of the `while` loop of `main`. -/
structure CycleInput where
  /-- result of `enmx_monitor`: the frame, or the error code of `enmx_geterror` after NULL -/
  monitor : Except EnmxError CEMIFRAME
  /-- seconds `tv.tv_sec` as filled in by `gettimeofday` -/
  tv_sec : Int
  /-- return code of the first `MQTTClient_publishMessage` -/
  publish_rc : Int
  /-- result of `MQTTClient_isConnected` -/
  isConnected : Int
  /-- return code of `MQTTClient_connect` -/
  connect_rc : Int
  /-- return code of the second `MQTTClient_publishMessage` -/
  retry_rc : Int

/-- The variables of `main` that live across passes of the loop. -/
structure LoopState where
  count : Int
  buffer : String
deriving DecidableEq, Repr

/-- The subscription filter of `main`. -/
def subscription : String := "iot-2/type/HomeGateway/id/HomePi3/cmd/+/fmt/+"

/-- Result of the value switch: the shared `buffer`, the pointer `ltime`, and the
candidate types when the frame carries a value. -/
structure Decoded where
  buffer : String
  ltime : Option tm
  eis_types : Option String
deriving DecidableEq, Repr

/-- The block guarded by
`cemiframe->apci & (A_WRITE_VALUE_REQ | A_RESPONSE_VALUE_REQ)` with its
`switch (cemiframe->length)`. -/
def decodeValue (h : Host) (f : CEMIFRAME) (buffer : String) (ltime : Option tm) : Decoded :=
  if f.apci &&& (0x0080 ||| 0x0040) ≠ 0 then
    match f.length with
    | 1 =>
      { buffer := if h.p_int 1 f = 0 then "0" else "1", ltime := ltime,
        eis_types := some "1, 2, 7, 8" }
    | 2 =>
      { buffer := printf_d (asInt32 (h.p_int 6 f * 100 % 2 ^ 32 / 255)) ++ "%", ltime := ltime,
        eis_types := some (if 0x20 ≤ h.p_int 13 f ∧ h.p_int 13 f < 0x7f
                           then "6, 14, 13" else "6, 14") }
    | 3 =>
      { buffer := h.p_real 5 f, ltime := ltime, eis_types := some "5, 10" }
    | 4 =>
      let seconds := asInt32 (h.p_int 3 f)
      let hour := Int.tdiv seconds 3600
      let seconds := Int.tmod seconds 3600
      let minute := Int.tdiv seconds 60
      let seconds := Int.tmod seconds 60
      { buffer := printf_0d 2 hour ++ ":" ++ printf_0d 2 minute ++ ":" ++ printf_0d 2 seconds,
        ltime := h.localtime (h.p_time f), eis_types := some "3, 4" }
    | 5 =>
      { buffer := printf_d (asInt32 (h.p_int 11 f)), ltime := ltime,
        eis_types := some "9, 11, 12" }
    | _ =>
      { buffer := buffer, ltime := ltime, eis_types := some "15" }
  else { buffer := buffer, ltime := ltime, eis_types := none }

/-- The topic assembled with `strcpy` and `strcat` from the matched record. -/
def buildTopic (actual : device) : String :=
  "iot-2/type/" ++ actual.event ++ "/id/" ++ actual.name ++ "/evt/" ++ actual.type
    ++ "/fmt/json"

/-- The text `sprintf (buffer, "%04d/%02d/%02d", ...)` writes. -/
def dateText (ltime : tm) : String :=
  printf_0d 4 (ltime.tm_year + 1900) ++ "/" ++ printf_0d 2 (ltime.tm_mon + 1) ++ "/"
    ++ printf_0d 2 ltime.tm_mday

/-- The text `sprintf (buffer, "%02d:%02d:%02d", ...)` writes. -/
def timeText (ltime : tm) : String :=
  printf_0d 2 ltime.tm_hour ++ ":" ++ printf_0d 2 ltime.tm_min ++ ":" ++ printf_0d 2 ltime.tm_sec

/-- The payload assembled with `strcpy` and `strcat` around the shared `buffer`. -/
def buildPayload (buffer : String) (ltime : tm) : String :=
  "\x7b\"d\":\x7b\"value\":\"" ++ buffer ++ "\",\"date\":\"" ++ dateText ltime
    ++ "\",\"time\":\"" ++ timeText ltime ++ "\"\x7d\x7d"

/-- The publish with its retry: the statements from the first
`MQTTClient_publishMessage` to the end of `if (rc)`. -/
def publishRetry (inp : CycleInput) (topic payload : String) (st : LoopState) :
    Outcome LoopState :=
  if inp.publish_rc ≠ 0 then
    if inp.isConnected = 0 then
      if inp.connect_rc ≠ MQTTCLIENT_SUCCESS then
        Outcome.exited (-1)
          [Event.publish topic payload, Event.log "Published to MQTT, return code %d\n",
           Event.sleep 1, Event.log "Reconnecting MQTT Client\n", Event.mqtt_connect,
           Event.log "Failed to connect to MQTT, return code %d\n"]
      else
        Outcome.done st
          [Event.publish topic payload, Event.log "Published to MQTT, return code %d\n",
           Event.sleep 1, Event.log "Reconnecting MQTT Client\n", Event.mqtt_connect,
           Event.mqtt_subscribe subscription, Event.publish topic payload,
           Event.log "Retry published to MQTT and return code %d\n"]
    else
      Outcome.done st
        [Event.publish topic payload, Event.log "Published to MQTT, return code %d\n",
         Event.sleep 1, Event.publish topic payload,
         Event.log "Retry published to MQTT and return code %d\n"]
  else Outcome.done st [Event.publish topic payload]

/-- The switch on `enmx_geterror` taken when `enmx_monitor` returns NULL. -/
def monitorError (e : EnmxError) (st : LoopState) : Outcome LoopState :=
  match e with
  | EnmxError.ENMX_E_COMMUNICATION
  | EnmxError.ENMX_E_NO_CONNECTION
  | EnmxError.ENMX_E_WRONG_USAGE
  | EnmxError.ENMX_E_NO_MEMORY =>
    Outcome.exited (-4) [Event.log "Error on write: %s\n", Event.enmx_close]
  | EnmxError.ENMX_E_INTERNAL => Outcome.done st [Event.log "Bad status returned\n"]
  | EnmxError.ENMX_E_SERVER_ABORTED =>
    Outcome.exited (-4) [Event.log "EOF reached: %s\n", Event.enmx_close]
  | EnmxError.ENMX_E_TIMEOUT => Outcome.done st [Event.log "No value received\n"]
  | EnmxError.other => Outcome.done st []

/-- Put the events `pre` in front of the trace of an outcome. -/
def Outcome.after {σ : Type} (pre : List Event) : Outcome σ → Outcome σ
  | Outcome.done s t => Outcome.done s (pre ++ t)
  | Outcome.exited a t => Outcome.exited a (pre ++ t)
  | Outcome.fault => Outcome.fault

/-- One pass of the body of `while (total == -1 || count < total)` in `main`. -/
def pollCycle (h : Host) (configuration : config) (inp : CycleInput) (st : LoopState) :
    Outcome LoopState :=
  match inp.monitor with
  | Except.error e => monitorError e st
  | Except.ok cemiframe =>
    match h.localtime inp.tv_sec with
    | none => Outcome.fault
    | some received =>
      let dec := decodeValue h cemiframe st.buffer (some received)
      let reported : List Event :=
        match dec.eis_types with
        | none => []
        | some t => [Event.eis_types t]
      let knxaddres := knx_group h.littleEndian cemiframe.daddr
      match scanKnx knxaddres configuration.devicelist with
      | none => Outcome.fault
      | some actual =>
        if actual.knx = knxaddres then
          match dec.ltime with
          | none => Outcome.fault
          | some ltime =>
            let topic := buildTopic actual
            let payload := buildPayload dec.buffer ltime
            Outcome.after reported
              (publishRetry inp topic payload
                { count := st.count + 1, buffer := timeText ltime })
        else Outcome.done { count := st.count + 1, buffer := dec.buffer } reported

/-- The `while` loop of `main` over the answers of a finite run of the
environment; when the loop condition fails `main` returns 0. -/
def mainLoop (h : Host) (configuration : config) (total : Int) :
    List CycleInput → LoopState → Outcome LoopState
  | [], st => Outcome.done st []
  | inp :: rest, st =>
    if total = -1 ∨ st.count < total then
      match pollCycle h configuration inp st with
      | Outcome.done st1 t => Outcome.after t (mainLoop h configuration total rest st1)
      | Outcome.exited a t => Outcome.exited a t
      | Outcome.fault => Outcome.fault
    else Outcome.exited 0 []

/-- The line of candidate EIS types one pass writes to the log, the
`fprintf (logfile, " - eis types: %s)", eis_types)` that closes the value
block. It is written before the registry is scanned and before the payload is
built, so it is there also when the pass faults afterwards. Nothing is written
when the monitor returns no frame, when `localtime` gives NULL for the receive
time (the pass faults at the time stamp, before the value block), or when the
frame carries no value. -/
def candidateLine (h : Host) (inp : CycleInput) (st : LoopState) : List String :=
  match inp.monitor with
  | Except.error _ => []
  | Except.ok cemiframe =>
    match h.localtime inp.tv_sec with
    | none => []
    | some received =>
      match (decodeValue h cemiframe st.buffer (some received)).eis_types with
      | none => []
      | some t => [t]

/-! ## Vocabulary of the properties -/

/-- Events of an outcome; a fault leaves none. -/
def Outcome.trace {σ : Type} : Outcome σ → List Event
  | Outcome.done _ t => t
  | Outcome.exited _ t => t
  | Outcome.fault => []

/-- Number of `MQTTClient_publishMessage` calls in a trace. -/
def countPublish (t : List Event) : Nat :=
  t.countP (fun e => match e with
    | Event.publish _ _ => true
    | _ => false)

/-- Number of `MQTTClient_connect` calls in a trace. -/
def countConnect (t : List Event) : Nat :=
  t.countP (fun e => e = Event.mqtt_connect)

/-- Number of `MQTTClient_subscribe` calls in a trace. -/
def countSubscribe (t : List Event) : Nat :=
  t.countP (fun e => match e with
    | Event.mqtt_subscribe _ => true
    | _ => false)

/-- Number of `enmx_write` calls in a trace. -/
def countWrite (t : List Event) : Nat :=
  t.countP (fun e => match e with
    | Event.enmx_write _ _ _ => true
    | _ => false)

/-- The two decimal digits of a number below 100, tens first. -/
def twoDigits (n : Nat) : String :=
  String.mk [Nat.digitChar (n / 10 % 10), Nat.digitChar (n % 10)]

/-- The four decimal digits of a number below 10000, thousands first. -/
def fourDigits (n : Nat) : String :=
  String.mk [Nat.digitChar (n / 1000 % 10), Nat.digitChar (n / 100 % 10),
             Nat.digitChar (n / 10 % 10), Nat.digitChar (n % 10)]

/-- The ranges `localtime` documents for the fields of `struct tm`, with a year
of at most four digits. -/
def calendarRange (t : tm) : Prop :=
  0 ≤ t.tm_year + 1900 ∧ t.tm_year + 1900 ≤ 9999 ∧ 0 ≤ t.tm_mon ∧ t.tm_mon ≤ 11 ∧
  1 ≤ t.tm_mday ∧ t.tm_mday ≤ 31 ∧ 0 ≤ t.tm_hour ∧ t.tm_hour ≤ 23 ∧
  0 ≤ t.tm_min ∧ t.tm_min ≤ 59 ∧ 0 ≤ t.tm_sec ∧ t.tm_sec ≤ 60

instance (t : tm) : Decidable (calendarRange t) := by
  unfold calendarRange
  infer_instance

/-- A sample registry: the device of the end-to-end scenarios. -/
def boilerConfig : config :=
  { initialConfig "localhost" with
    devicelist := [device.mk "0/0/5" "Boiler" "Temperature" "Measurement"] }

/-- A sample little-endian host: the clock reads 2016/07/19 15:55:29, the codec
decodes every frame to the float text `42.00` and the integer 0, the address
helper gives `0x0005`, every EIS type has 4 bytes and every conversion gives
the four IEEE bytes of 21.5. -/
def sampleHost : Host :=
  { littleEndian := true
    localtime := fun _ => some (tm.mk 29 55 15 19 6 116)
    p_int := fun _ _ => 0
    p_time := fun _ => 0
    p_real := fun _ _ => "42.00"
    enmx_getaddress := fun _ => 0x0005
    enmx_EISsizeKNX := fun _ => 4
    enmx_value2eis := fun _ _ => some [0x41, 0xac, 0x00, 0x00] }

/-- The sample host with a codec that rejects every conversion. -/
def rejectingHost : Host :=
  { sampleHost with enmx_value2eis := fun _ _ => none }

/-- A sample frame: a group write of three bytes to `0/0/5`, as loaded on a
little-endian host. -/
def sampleFrame : CEMIFRAME :=
  { code := 0x29, zero := 0, ctrl := 0xbc, ntwrk := 0xe0, saddr := 0x0111, daddr := 0x0500,
    length := 3, tpci := 0, apci := 0x80, data := [0x0c, 0x1a] }

/-- A pass in which the monitor delivers `sampleFrame` and the transport gives
the four answers `rc1`, `conn`, `rc2`, `rc3`. -/
def sampleInput (rc1 conn rc2 rc3 : Int) : CycleInput :=
  { monitor := Except.ok sampleFrame, tv_sec := 1468943729, publish_rc := rc1,
    isConnected := conn, connect_rc := rc2, retry_rc := rc3 }

/-- A pass in which the monitor returns NULL with the error `e`. -/
def errorInput (e : EnmxError) : CycleInput :=
  { monitor := Except.error e, tv_sec := 1468943729, publish_rc := 0,
    isConnected := 1, connect_rc := 0, retry_rc := 0 }

/-- The candidate-type lines of a trace, in order. -/
def reportedTypes (t : List Event) : List String :=
  t.filterMap (fun e => match e with
    | Event.eis_types x => some x
    | _ => none)

/-- The payloads of the publish calls of a trace, in order. -/
def publishedPayloads (t : List Event) : List String :=
  t.filterMap (fun e => match e with
    | Event.publish _ p => some p
    | _ => none)

/-- Value of a decimal numeral. -/
def decimalValue (s : List Char) : Nat :=
  s.foldl (fun acc c => 10 * acc + (c.toNat - 48)) 0

/-- A sample host whose codec hands back the data bytes of the frame as one
big-endian number, and whose clock knows two instants: the receive time
2016/07/19 15:55:29 and the epoch 1970/01/01 00:00:00; `localtime` gives NULL
for any other value. -/
def payloadHost : Host :=
  { sampleHost with
    localtime := fun t =>
      if t = 1468943729 then some (tm.mk 29 55 15 19 6 116)
      else if t = 0 then some (tm.mk 0 0 0 1 0 70)
      else none
    p_int := fun _ f => f.data.foldl (fun acc b => 256 * acc + b) 0
    p_time := fun f => Int.ofNat (f.data.foldl (fun acc b => 256 * acc + b) 0) }

/-- The sample frame with another length byte, APCI byte and data. -/
def frameWith (length apci : Nat) (data : List Nat) : CEMIFRAME :=
  { sampleFrame with length := length, apci := apci, data := data }

/-- A pass in which the monitor delivers `f` and the first publish succeeds. -/
def frameInput (f : CEMIFRAME) : CycleInput :=
  { sampleInput 0 1 0 0 with monitor := Except.ok f }

/-- A pass that decodes no value and publishes nothing: the monitor returns no
frame, or the frame has neither the write nor the response bit, or a length
byte outside 1 to 5, and its address matches no record. -/
def silentPass (h : Host) (c : config) (inp : CycleInput) : Prop :=
  match inp.monitor with
  | Except.error _ => True
  | Except.ok f =>
    (f.apci &&& (0x0080 ||| 0x0040) = 0 ∨
      (f.length ≠ 1 ∧ f.length ≠ 2 ∧ f.length ≠ 3 ∧ f.length ≠ 4 ∧ f.length ≠ 5)) ∧
    findByGroupAddress c.devicelist (knx_group h.littleEndian f.daddr) = Lookup.notFound

/-- Consecutive passes that all return to the loop; `none` when one of them ends
the process or faults. -/
def runPasses (h : Host) (c : config) : List CycleInput → LoopState → Option LoopState
  | [], st => some st
  | inp :: rest, st =>
    match pollCycle h c inp st with
    | Outcome.done s _ => runPasses h c rest s
    | Outcome.exited _ _ => none
    | Outcome.fault => none

/-- A group write of one byte to `0/0/6`, an address without a record in
`boilerConfig`. -/
def unregisteredFrame : CEMIFRAME :=
  { sampleFrame with daddr := 0x0600, length := 1, apci := 0x81, data := [] }

/-! ## Properties: address formatter -/

theorem printf_d_natCast (n : Nat) : printf_d (n : Int) = Nat.repr n := rfl

/-- A mask of `k` ones placed at bit `n`, followed by a shift right by `n`,
selects the bit field `n .. n + k - 1`. -/
theorem and_mask_shiftRight (a k n : Nat) :
    (a &&& ((2 ^ k - 1) <<< n)) >>> n = a / 2 ^ n % 2 ^ k := by
  apply Nat.eq_of_testBit_eq
  intro i
  rw [← Nat.shiftRight_eq_div_pow]
  simp [Nat.testBit_shiftRight, Nat.testBit_and, Nat.testBit_shiftLeft,
    Nat.testBit_mod_two_pow, Bool.and_comm]

theorem ntohs_lt (le : Bool) (x : Nat) (h : x < 65536) : ntohs le x < 65536 := by
  unfold ntohs
  split
  · have h1 : (x &&& 0xff) <<< 8 < 2 ^ 16 := by
      rw [Nat.shiftLeft_eq]
      have : x &&& 0xff < 2 ^ 8 := Nat.and_lt_two_pow _ (by norm_num)
      omega
    have h2 : (x >>> 8) &&& 0xff < 2 ^ 16 := Nat.and_lt_two_pow _ (by norm_num)
    exact Nat.or_lt_two_pow h1 h2
  · exact h

theorem knx_physical_eq (le : Bool) (raw : Nat) :
    knx_physical le raw
      = Nat.repr (ntohs le raw / 2 ^ 12 % 2 ^ 4) ++ "." ++ Nat.repr (ntohs le raw / 2 ^ 8 % 2 ^ 4)
          ++ "." ++ Nat.repr (ntohs le raw % 2 ^ 8) := by
  have e1 := and_mask_shiftRight (ntohs le raw) 4 12
  have e2 := and_mask_shiftRight (ntohs le raw) 4 8
  have e3 := Nat.and_pow_two_sub_one_eq_mod (ntohs le raw) 8
  have m1 : (2 ^ 4 - 1) <<< 12 = 0xf000 := by decide
  have m2 : (2 ^ 4 - 1) <<< 8 = 0x0f00 := by decide
  have m3 : 2 ^ 8 - 1 = 0x00ff := by decide
  rw [m1] at e1
  rw [m2] at e2
  rw [m3] at e3
  simp only [knx_physical, printf_d_natCast, e1, e2, e3]

theorem knx_group_eq (le : Bool) (raw : Nat) :
    knx_group le raw
      = Nat.repr (ntohs le raw / 2 ^ 11 % 2 ^ 4) ++ "/" ++ Nat.repr (ntohs le raw / 2 ^ 8 % 2 ^ 3)
          ++ "/" ++ Nat.repr (ntohs le raw % 2 ^ 8) := by
  have e1 := and_mask_shiftRight (ntohs le raw) 4 11
  have e2 := and_mask_shiftRight (ntohs le raw) 3 8
  have e3 := Nat.and_pow_two_sub_one_eq_mod (ntohs le raw) 8
  have m1 : (2 ^ 4 - 1) <<< 11 = 0x7800 := by decide
  have m2 : (2 ^ 3 - 1) <<< 8 = 0x0700 := by decide
  have m3 : 2 ^ 8 - 1 = 0x00ff := by decide
  rw [m1] at e1
  rw [m2] at e2
  rw [m3] at e3
  simp only [knx_group, printf_d_natCast, e1, e2, e3]

/-- C1: for every 16-bit address, with `a` the address after `ntohs`, the text
`knx_physical` returns is the decimal `area.line.device` where area is the bit
field 15-12 of `a` (below 16), line the bit field 11-8 (below 16) and device the
bit field 7-0 (below 256); the function is total, and when `a` is `0x1101` the
text is `1.1.1`. -/
theorem knx_physical_renders (le : Bool) (raw : Nat) (h : raw < 65536) :
    ntohs le raw < 65536 ∧
    ntohs le raw / 2 ^ 12 % 2 ^ 4 < 16 ∧ ntohs le raw / 2 ^ 8 % 2 ^ 4 < 16 ∧
    ntohs le raw % 2 ^ 8 < 256 ∧
    knx_physical le raw
      = Nat.repr (ntohs le raw / 2 ^ 12 % 2 ^ 4) ++ "." ++ Nat.repr (ntohs le raw / 2 ^ 8 % 2 ^ 4)
          ++ "." ++ Nat.repr (ntohs le raw % 2 ^ 8) ∧
    (ntohs le raw = 0x1101 → knx_physical le raw = "1.1.1") := by
  refine ⟨ntohs_lt le raw h, ?_, ?_, ?_, knx_physical_eq le raw, ?_⟩
  · exact Nat.mod_lt _ (by norm_num)
  · exact Nat.mod_lt _ (by norm_num)
  · exact Nat.mod_lt _ (by norm_num)
  · intro e
    rw [knx_physical_eq, e]
    decide

/-- Witness of C1 on a little-endian host: the frame bytes `11 01` are loaded as
`0x0111` and render as `1.1.1`. -/
theorem knx_physical_renders_witness :
    (0x0111 : Nat) < 65536 ∧ knx_physical true 0x0111 = "1.1.1" :=
  ⟨by decide, (knx_physical_renders true 0x0111 (by decide)).2.2.2.2.2 (by decide)⟩

/-- C2: for every 16-bit address, with `a` the address after `ntohs`, the text
`knx_group` returns is the decimal `top/sub/group` where top is the bit field
14-11 of `a` (below 16), sub the bit field 10-8 (below 8) and group the bit
field 7-0 (below 256); the function is total, and when `a` is `0x0005` the text
is `0/0/5`. -/
theorem knx_group_renders (le : Bool) (raw : Nat) (h : raw < 65536) :
    ntohs le raw < 65536 ∧
    ntohs le raw / 2 ^ 11 % 2 ^ 4 < 16 ∧ ntohs le raw / 2 ^ 8 % 2 ^ 3 < 8 ∧
    ntohs le raw % 2 ^ 8 < 256 ∧
    knx_group le raw
      = Nat.repr (ntohs le raw / 2 ^ 11 % 2 ^ 4) ++ "/" ++ Nat.repr (ntohs le raw / 2 ^ 8 % 2 ^ 3)
          ++ "/" ++ Nat.repr (ntohs le raw % 2 ^ 8) ∧
    (ntohs le raw = 0x0005 → knx_group le raw = "0/0/5") := by
  refine ⟨ntohs_lt le raw h, ?_, ?_, ?_, knx_group_eq le raw, ?_⟩
  · exact Nat.mod_lt _ (by norm_num)
  · exact Nat.mod_lt _ (by norm_num)
  · exact Nat.mod_lt _ (by norm_num)
  · intro e
    rw [knx_group_eq, e]
    decide

/-- Witness of C2 on a little-endian host: the frame bytes `00 05` are loaded as
`0x0500` and render as `0/0/5`. -/
theorem knx_group_renders_witness :
    (0x0500 : Nat) < 65536 ∧ knx_group true 0x0500 = "0/0/5" :=
  ⟨by decide, (knx_group_renders true 0x0500 (by decide)).2.2.2.2.2 (by decide)⟩

/-! ## Properties: configuration load and registry lookup -/

theorem read_configfile_append (l1 l2 : List (List Char)) (c : config) :
    read_configfile (l1 ++ l2) c = (read_configfile l1 c).bind (read_configfile l2) := by
  induction l1 generalizing c with
  | nil => rfl
  | cons line rest ih =>
    simp only [List.cons_append, read_configfile]
    cases applyLine c (parseLine line) with
    | none => rfl
    | some c1 => exact ih c1

/-- A file whose lines all parse is loaded without a fault. -/
theorem read_configfile_total (lines : List (List Char)) (c : config)
    (hok : ∀ l ∈ lines, parseLine l ≠ LineEffect.fault) :
    ∃ c1, read_configfile lines c = some c1 := by
  induction lines generalizing c with
  | nil => exact ⟨c, rfl⟩
  | cons line rest ih =>
    have hl : parseLine line ≠ LineEffect.fault := hok line (List.mem_cons_self _ _)
    have hr : ∀ l ∈ rest, parseLine l ≠ LineEffect.fault :=
      fun l hm => hok l (List.mem_cons_of_mem _ hm)
    simp only [read_configfile]
    cases hp : parseLine line with
    | fault => exact absurd hp hl
    | nothing => exact ih _ hr
    | ADDRESS v => exact ih _ hr
    | CLIENTID v => exact ih _ hr
    | QOS v => exact ih _ hr
    | TIMEOUT v => exact ih _ hr
    | USERNAME v => exact ih _ hr
    | PASSWORD v => exact ih _ hr
    | SOLAR_IP v => exact ih _ hr
    | DEVICE d => exact ih _ hr

/-- One line either leaves the device list alone or links its record in front. -/
theorem applyLine_devicelist (c c1 : config) (e : LineEffect) (h : applyLine c e = some c1) :
    c1.devicelist = c.devicelist ∨ ∃ d, e = LineEffect.DEVICE d ∧ c1.devicelist = d :: c.devicelist := by
  cases e with
  | DEVICE d =>
    simp only [applyLine, Option.some.injEq] at h
    exact Or.inr ⟨d, rfl, by rw [← h]⟩
  | fault => exact absurd h (by simp [applyLine])
  | nothing => simp only [applyLine, Option.some.injEq] at h; exact Or.inl (by rw [← h])
  | ADDRESS v => simp only [applyLine, Option.some.injEq] at h; exact Or.inl (by rw [← h])
  | CLIENTID v => simp only [applyLine, Option.some.injEq] at h; exact Or.inl (by rw [← h])
  | QOS v => simp only [applyLine, Option.some.injEq] at h; exact Or.inl (by rw [← h])
  | TIMEOUT v => simp only [applyLine, Option.some.injEq] at h; exact Or.inl (by rw [← h])
  | USERNAME v => simp only [applyLine, Option.some.injEq] at h; exact Or.inl (by rw [← h])
  | PASSWORD v => simp only [applyLine, Option.some.injEq] at h; exact Or.inl (by rw [← h])
  | SOLAR_IP v => simp only [applyLine, Option.some.injEq] at h; exact Or.inl (by rw [← h])

/-- Loading lines puts the records of their `DEVICE` lines in front of the list
that was there before. -/
theorem read_configfile_devicelist (lines : List (List Char)) (c c1 : config)
    (h : read_configfile lines c = some c1) :
    ∃ front : List device, c1.devicelist = front ++ c.devicelist ∧
      ∀ d ∈ front, ∃ l ∈ lines, parseLine l = LineEffect.DEVICE d := by
  induction lines generalizing c with
  | nil =>
    simp only [read_configfile, Option.some.injEq] at h
    exact ⟨[], by rw [h]; rfl, by simp⟩
  | cons line rest ih =>
    simp only [read_configfile] at h
    cases ha : applyLine c (parseLine line) with
    | none => rw [ha] at h; exact absurd h (by simp)
    | some c2 =>
      rw [ha] at h
      obtain ⟨front, hf, hm⟩ := ih c2 h
      rcases applyLine_devicelist c c2 _ ha with e | ⟨d, hd, e⟩
      · refine ⟨front, by rw [hf, e], ?_⟩
        intro d hd
        obtain ⟨l, hl, hp⟩ := hm d hd
        exact ⟨l, List.mem_cons_of_mem _ hl, hp⟩
      · refine ⟨front ++ [d], by rw [hf, e]; simp, ?_⟩
        intro d1 hd1
        rcases List.mem_append.mp hd1 with h1 | h1
        · obtain ⟨l, hl, hp⟩ := hm d1 h1
          exact ⟨l, List.mem_cons_of_mem _ hl, hp⟩
        · have : d1 = d := by simpa using h1
          exact ⟨line, List.mem_cons_self _ _, by rw [this, hd]⟩

/-- The scan walks over records with another address as long as the list goes on. -/
theorem scanKnx_skip (k : String) (front rest : List device) (hne : rest ≠ [])
    (hf : ∀ d ∈ front, d.knx ≠ k) : scanKnx k (front ++ rest) = scanKnx k rest := by
  induction front with
  | nil => rfl
  | cons d ds ih =>
    have hd : d.knx ≠ k := hf d (List.mem_cons_self _ _)
    have hne2 : ds ++ rest ≠ [] := by simp [hne]
    simp only [List.cons_append, scanKnx]
    rw [if_pos ⟨hd, hne2⟩]
    exact ih (fun x hx => hf x (List.mem_cons_of_mem _ hx))

/-- C3: duplicate-key policy. In a configuration that loads without a fault and
in which the `DEVICE` lines A and B carry the same group address, A comes
before B, and no later line carries that address (B is the last entry with
it), the registry built by `read_configfile` contains both records and the
scan of the polling loop resolves the address to the record of B. -/
theorem last_device_line_wins (c0 : config) (before between after : List (List Char))
    (A B : List Char) (recA recB : device)
    (hA : parseLine A = LineEffect.DEVICE recA) (hB : parseLine B = LineEffect.DEVICE recB)
    (hkey : recA.knx = recB.knx)
    (hlast : ∀ l ∈ after, ∀ d, parseLine l = LineEffect.DEVICE d → d.knx ≠ recB.knx)
    (hok : ∀ l ∈ before ++ A :: (between ++ B :: after), parseLine l ≠ LineEffect.fault) :
    ∃ c, read_configfile (before ++ A :: (between ++ B :: after)) c0 = some c ∧
      recA ∈ c.devicelist ∧ recB ∈ c.devicelist ∧
      findByGroupAddress c.devicelist recA.knx = Lookup.found recB := by
  rw [hkey]
  have hsplit : before ++ A :: (between ++ B :: after)
      = (before ++ [A]) ++ ((between ++ [B]) ++ after) := by simp
  obtain ⟨c, hc⟩ := read_configfile_total _ c0 hok
  refine ⟨c, hc, ?_⟩
  rw [hsplit, read_configfile_append] at hc
  cases h1 : read_configfile (before ++ [A]) c0 with
  | none => rw [h1] at hc; exact absurd hc (by simp)
  | some cA =>
    rw [h1, Option.some_bind, read_configfile_append] at hc
    cases h2 : read_configfile (between ++ [B]) cA with
    | none => rw [h2] at hc; exact absurd hc (by simp)
    | some cB =>
      rw [h2, Option.some_bind] at hc
      -- the list right after line A and right after line B
      have headOf : ∀ (ls : List (List Char)) (x : List Char) (r : device) (ci co : config),
          parseLine x = LineEffect.DEVICE r → read_configfile (ls ++ [x]) ci = some co →
          ∃ tl, co.devicelist = r :: tl := by
        intro ls x r ci co hx hr
        rw [read_configfile_append] at hr
        cases h3 : read_configfile ls ci with
        | none => rw [h3] at hr; exact absurd hr (by simp)
        | some cm =>
          rw [h3, Option.some_bind] at hr
          simp only [read_configfile, hx, applyLine, Option.some.injEq] at hr
          exact ⟨cm.devicelist, by rw [← hr]⟩
      obtain ⟨tlA, hlA⟩ := headOf before A recA c0 cA hA h1
      obtain ⟨tlB, hlB⟩ := headOf between B recB cA cB hB h2
      obtain ⟨fB, hfB, _⟩ := read_configfile_devicelist _ _ _ h2
      obtain ⟨fC, hfC, hmC⟩ := read_configfile_devicelist _ _ _ hc
      have hfront : ∀ d ∈ fC, d.knx ≠ recB.knx := by
        intro d hd
        obtain ⟨l, hl, hp⟩ := hmC d hd
        exact hlast l hl d hp
      refine ⟨?_, ?_, ?_⟩
      · rw [hfC, hfB, hlA]; simp
      · rw [hfC, hlB]; simp
      · unfold findByGroupAddress
        rw [hfC, hlB, scanKnx_skip _ _ _ (by simp) hfront]
        simp [scanKnx]

/-- Witness of C3: two `DEVICE` lines for `0/0/5`, then one for `0/0/6`; the
lookup of `0/0/5` gives the record of the second line. -/
theorem last_device_line_wins_witness :
    ∃ c, read_configfile
        ("# devices\n".data :: "DEVICE=0/0/5 Boiler Temperature Measurement\n".data ::
          ("QOS=1\n".data :: "DEVICE=0/0/5 Pump Flow Measurement\n".data ::
            ["DEVICE=0/0/6 Lamp Light State\n".data])) (initialConfig "localhost") = some c ∧
      device.mk "0/0/5" "Boiler" "Temperature" "Measurement" ∈ c.devicelist ∧
      device.mk "0/0/5" "Pump" "Flow" "Measurement" ∈ c.devicelist ∧
      findByGroupAddress c.devicelist "0/0/5"
        = Lookup.found (device.mk "0/0/5" "Pump" "Flow" "Measurement") :=
  last_device_line_wins (initialConfig "localhost") ["# devices\n".data] ["QOS=1\n".data]
    ["DEVICE=0/0/6 Lamp Light State\n".data]
    "DEVICE=0/0/5 Boiler Temperature Measurement\n".data
    "DEVICE=0/0/5 Pump Flow Measurement\n".data
    (device.mk "0/0/5" "Boiler" "Temperature" "Measurement")
    (device.mk "0/0/5" "Pump" "Flow" "Measurement")
    (by decide) (by decide) rfl
    (by
      intro l hl d hd
      have hl2 : l = "DEVICE=0/0/6 Lamp Light State\n".data := by simpa using hl
      have hp : parseLine "DEVICE=0/0/6 Lamp Light State\n".data
          = LineEffect.DEVICE (device.mk "0/0/6" "Lamp" "Light" "State") := by decide
      rw [hl2, hp] at hd
      injection hd with hd
      rw [← hd]
      decide)
    (by decide)

/-- On a list that holds a record with address `k` the scan stops at such a record. -/
theorem scanKnx_found (k : String) (l : List device) (h : ∃ d ∈ l, d.knx = k) :
    ∃ d ∈ l, scanKnx k l = some d ∧ d.knx = k := by
  induction l with
  | nil => obtain ⟨d, hd, _⟩ := h; exact absurd hd (List.not_mem_nil d)
  | cons x xs ih =>
    by_cases hx : x.knx = k
    · refine ⟨x, List.mem_cons_self _ _, ?_, hx⟩
      simp [scanKnx, hx]
    · have hrest : ∃ d ∈ xs, d.knx = k := by
        obtain ⟨d, hd, hk⟩ := h
        rcases List.mem_cons.mp hd with e | e
        · exact absurd (e ▸ hk) hx
        · exact ⟨d, e, hk⟩
      have hne : xs ≠ [] := by
        obtain ⟨d, hd, _⟩ := hrest
        exact List.ne_nil_of_mem hd
      obtain ⟨d, hd, hs, hk⟩ := ih hrest
      refine ⟨d, List.mem_cons_of_mem _ hd, ?_, hk⟩
      simp only [scanKnx]
      rw [if_pos ⟨hx, hne⟩]
      exact hs

/-- On a non-empty list without a record with address `k` the scan stops at the
last record, whose address is not `k`. -/
theorem scanKnx_missing (k : String) (l : List device) (hne : l ≠ [])
    (h : ∀ d ∈ l, d.knx ≠ k) : ∃ d ∈ l, scanKnx k l = some d ∧ d.knx ≠ k := by
  induction l with
  | nil => exact absurd rfl hne
  | cons x xs ih =>
    have hx : x.knx ≠ k := h x (List.mem_cons_self _ _)
    by_cases hxs : xs = []
    · refine ⟨x, List.mem_cons_self _ _, ?_, hx⟩
      simp [scanKnx, hxs]
    · obtain ⟨d, hd, hs, hk⟩ := ih hxs (fun d hd => h d (List.mem_cons_of_mem _ hd))
      refine ⟨d, List.mem_cons_of_mem _ hd, ?_, hk⟩
      simp only [scanKnx]
      rw [if_pos ⟨hx, hxs⟩]
      exact hs

theorem scanName_found (k : String) (l : List device) (h : ∃ d ∈ l, d.name = k) :
    ∃ d ∈ l, scanName k l = some d ∧ d.name = k := by
  induction l with
  | nil => obtain ⟨d, hd, _⟩ := h; exact absurd hd (List.not_mem_nil d)
  | cons x xs ih =>
    by_cases hx : x.name = k
    · refine ⟨x, List.mem_cons_self _ _, ?_, hx⟩
      simp [scanName, hx]
    · have hrest : ∃ d ∈ xs, d.name = k := by
        obtain ⟨d, hd, hk⟩ := h
        rcases List.mem_cons.mp hd with e | e
        · exact absurd (e ▸ hk) hx
        · exact ⟨d, e, hk⟩
      have hne : xs ≠ [] := by
        obtain ⟨d, hd, _⟩ := hrest
        exact List.ne_nil_of_mem hd
      obtain ⟨d, hd, hs, hk⟩ := ih hrest
      refine ⟨d, List.mem_cons_of_mem _ hd, ?_, hk⟩
      simp only [scanName]
      rw [if_pos ⟨hx, hne⟩]
      exact hs

theorem scanName_missing (k : String) (l : List device) (hne : l ≠ [])
    (h : ∀ d ∈ l, d.name ≠ k) : ∃ d ∈ l, scanName k l = some d ∧ d.name ≠ k := by
  induction l with
  | nil => exact absurd rfl hne
  | cons x xs ih =>
    have hx : x.name ≠ k := h x (List.mem_cons_self _ _)
    by_cases hxs : xs = []
    · refine ⟨x, List.mem_cons_self _ _, ?_, hx⟩
      simp [scanName, hxs]
    · obtain ⟨d, hd, hs, hk⟩ := ih hxs (fun d hd => h d (List.mem_cons_of_mem _ hd))
      refine ⟨d, List.mem_cons_of_mem _ hd, ?_, hk⟩
      simp only [scanName]
      rw [if_pos ⟨hx, hxs⟩]
      exact hs

/-- On a non-empty registry both lookups behave as a keyed search: a record with
the searched key when one exists, `notFound` otherwise. -/
theorem lookup_on_nonempty_registry (l : List device) (k : String) (hne : l ≠ []) :
    ((∃ d ∈ l, d.knx = k) → ∃ d ∈ l, d.knx = k ∧ findByGroupAddress l k = Lookup.found d) ∧
    ((∀ d ∈ l, d.knx ≠ k) → findByGroupAddress l k = Lookup.notFound) ∧
    ((∃ d ∈ l, d.name = k) → ∃ d ∈ l, d.name = k ∧ findByName l k = Lookup.found d) ∧
    ((∀ d ∈ l, d.name ≠ k) → findByName l k = Lookup.notFound) := by
  refine ⟨?_, ?_, ?_, ?_⟩
  · intro h
    obtain ⟨d, hd, hs, hk⟩ := scanKnx_found k l h
    exact ⟨d, hd, hk, by simp [findByGroupAddress, hs, hk]⟩
  · intro h
    obtain ⟨d, _, hs, hk⟩ := scanKnx_missing k l hne h
    simp [findByGroupAddress, hs, hk]
  · intro h
    obtain ⟨d, hd, hs, hk⟩ := scanName_found k l h
    exact ⟨d, hd, hk, by simp [findByName, hs, hk]⟩
  · intro h
    obtain ⟨d, _, hs, hk⟩ := scanName_missing k l hne h
    simp [findByName, hs, hk]

/-- A miss on a non-empty registry publishes nothing and writes nothing: the
polling pass ends with the candidate-type report as its only possible event and
the handler returns with an empty trace. -/
theorem miss_on_nonempty_registry (h : Host) (c : config) (hne : c.devicelist ≠ [])
    (inp : CycleInput) (st : LoopState) (frame : CEMIFRAME) (received : tm)
    (hin : HandlerInput) (message : List Char) (ty name action value : String)
    (hmon : inp.monitor = Except.ok frame) (htime : h.localtime inp.tv_sec = some received)
    (hknx : ∀ d ∈ c.devicelist, d.knx ≠ knx_group h.littleEndian frame.daddr)
    (hlen : message.length < 1024)
    (hparse : parsePayload (message.takeWhile (fun x => x ≠ Char.ofNat 0))
      = some (ty, name, action, value))
    (hname : ∀ d ∈ c.devicelist, d.name ≠ name) :
    (∃ s t, pollCycle h c inp st = Outcome.done s t ∧ ∀ e ∈ t, ∃ x, e = Event.eis_types x) ∧
    msgarrvd h c hin message = Outcome.done 1 [] := by
  constructor
  · obtain ⟨d, _, hs, hk⟩ := scanKnx_missing _ c.devicelist hne hknx
    simp only [pollCycle, hmon, htime, hs, if_neg hk]
    refine ⟨_, _, rfl, ?_⟩
    intro e he
    cases hd : (decodeValue h frame st.buffer (some received)).eis_types with
    | none => rw [hd] at he; exact absurd he (List.not_mem_nil e)
    | some x =>
      rw [hd] at he
      exact ⟨x, by simpa using he⟩
  · obtain ⟨d, _, hs, hk⟩ := scanName_missing _ c.devicelist hne hname
    simp only [msgarrvd, Nat.not_le.mpr hlen, if_false, hparse, hs, if_neg hk]

/-- C4, at the empty registry: a configuration without `DEVICE` lines loads to
the empty list, and on it both lookups dereference the NULL list head. The
polling pass faults for every frame and the handler faults for every message,
instead of reporting a miss and going on. -/
theorem lookup_faults_on_empty_registry (h : Host) (target k : String) (frame : CEMIFRAME)
    (tv_sec rc1 conn rc2 rc3 : Int) (st : LoopState) (hin : HandlerInput) (message : List Char) :
    read_configfile ["QOS=1\n".data] (initialConfig target)
      = some { initialConfig target with qos := "1" } ∧
    ({ initialConfig target with qos := "1" } : config).devicelist = [] ∧
    findByGroupAddress [] k = Lookup.fault ∧ findByName [] k = Lookup.fault ∧
    pollCycle h { initialConfig target with qos := "1" }
      { monitor := Except.ok frame, tv_sec := tv_sec, publish_rc := rc1, isConnected := conn,
        connect_rc := rc2, retry_rc := rc3 } st = Outcome.fault ∧
    msgarrvd h { initialConfig target with qos := "1" } hin message = Outcome.fault := by
  have hq : parseLine "QOS=1\n".data = LineEffect.QOS "1" := by decide
  refine ⟨by simp only [read_configfile, hq, applyLine], rfl, rfl, rfl, ?_, ?_⟩
  · simp only [pollCycle, initialConfig, scanKnx]
    cases h.localtime tv_sec <;> rfl
  · simp only [msgarrvd, initialConfig, scanName]
    split
    · rfl
    · split
      · rfl
      · rfl

/-! ## Properties: outbound message -/

theorem toDigitsCore_small (fuel n : Nat) (ds : List Char) (h : n < 10) :
    Nat.toDigitsCore 10 (fuel + 1) n ds = Nat.digitChar n :: ds := by
  have h1 : n / 10 = 0 := by omega
  have h2 : n % 10 = n := by omega
  simp [Nat.toDigitsCore, h1, h2]

theorem toDigitsCore_step (fuel n : Nat) (ds : List Char) (h : 10 ≤ n) :
    Nat.toDigitsCore 10 (fuel + 1) n ds
      = Nat.toDigitsCore 10 fuel (n / 10) (Nat.digitChar (n % 10) :: ds) := by
  have h1 : n / 10 ≠ 0 := by omega
  simp [Nat.toDigitsCore, h1]

/-- Conversion `%02d` of a number below 100 gives exactly its two digits. -/
theorem printf_0d_two (n : Nat) (h : n < 100) : printf_0d 2 (n : Int) = twoDigits n := by
  interval_cases n <;> rfl

/-- Conversion `%04d` of a number below 10000 gives exactly its four digits. -/
theorem printf_0d_four (n : Nat) (h : n < 10000) : printf_0d 4 (n : Int) = fourDigits n := by
  show zeroPad 4 (Nat.repr n) = fourDigits n
  by_cases h3 : n < 4
  · interval_cases n <;> rfl
  · obtain ⟨f, hf⟩ : ∃ f, n + 1 = f + 4 := ⟨n - 3, by omega⟩
    have hr : Nat.repr n = String.mk (Nat.toDigitsCore 10 (f + 4) n []) := by
      simp [Nat.repr, Nat.toDigits, hf, List.asString]
    rw [hr]
    by_cases c1 : n < 10
    · rw [toDigitsCore_small _ _ _ c1]
      have : n / 1000 % 10 = 0 ∧ n / 100 % 10 = 0 ∧ n / 10 % 10 = 0 ∧ n % 10 = n := by omega
      simp only [fourDigits, this]
      rfl
    · rw [toDigitsCore_step _ _ _ (by omega)]
      by_cases c2 : n < 100
      · rw [toDigitsCore_small _ _ _ (by omega)]
        have : n / 1000 % 10 = 0 ∧ n / 100 % 10 = 0 ∧ n / 10 % 10 = n / 10 := by omega
        simp only [fourDigits, this]
        rfl
      · rw [toDigitsCore_step _ _ _ (by omega)]
        by_cases c3 : n < 1000
        · rw [toDigitsCore_small _ _ _ (by omega)]
          have : n / 1000 % 10 = 0 ∧ n / 100 % 10 = n / 10 / 10 := by omega
          simp only [fourDigits, this]
          rfl
        · rw [toDigitsCore_step _ _ _ (by omega), toDigitsCore_small _ _ _ (by omega)]
          have : n / 1000 % 10 = n / 10 / 10 / 10 ∧ n / 100 % 10 = n / 10 / 10 % 10 := by omega
          simp only [fourDigits, this]
          rfl

theorem printf_0d_two_int (i : Int) (h0 : 0 ≤ i) (h1 : i < 100) :
    printf_0d 2 i = twoDigits i.toNat := by
  obtain ⟨n, rfl⟩ := Int.eq_ofNat_of_zero_le h0
  exact printf_0d_two n (by omega)

theorem printf_0d_four_int (i : Int) (h0 : 0 ≤ i) (h1 : i < 10000) :
    printf_0d 4 i = fourDigits i.toNat := by
  obtain ⟨n, rfl⟩ := Int.eq_ofNat_of_zero_le h0
  exact printf_0d_four n (by omega)

/-- The date text is `YYYY/MM/DD`, zero padded, for a time in the calendar range. -/
theorem dateText_eq (t : tm) (h : calendarRange t) :
    dateText t = fourDigits (t.tm_year + 1900).toNat ++ "/" ++ twoDigits (t.tm_mon + 1).toNat
      ++ "/" ++ twoDigits t.tm_mday.toNat := by
  obtain ⟨a1, a2, a3, a4, a5, a6, -⟩ := h
  simp only [dateText]
  rw [printf_0d_four_int _ a1 (by omega), printf_0d_two_int _ (by omega) (by omega),
    printf_0d_two_int _ (by omega) (by omega)]

/-- The time text is `HH:MM:SS`, zero padded, for a time in the calendar range. -/
theorem timeText_eq (t : tm) (h : calendarRange t) :
    timeText t = twoDigits t.tm_hour.toNat ++ ":" ++ twoDigits t.tm_min.toNat
      ++ ":" ++ twoDigits t.tm_sec.toNat := by
  obtain ⟨-, -, -, -, -, -, a7, a8, a9, a10, a11, a12⟩ := h
  simp only [timeText]
  rw [printf_0d_two_int _ a7 (by omega), printf_0d_two_int _ a9 (by omega),
    printf_0d_two_int _ a11 (by omega)]

theorem findByGroupAddress_found (l : List device) (k : String) (d : device)
    (h : findByGroupAddress l k = Lookup.found d) : scanKnx k l = some d ∧ d.knx = k := by
  unfold findByGroupAddress at h
  cases hs : scanKnx k l with
  | none => rw [hs] at h; exact absurd h (by simp)
  | some a =>
    rw [hs] at h
    by_cases hk : a.knx = k
    · simp only [if_pos hk] at h
      injection h with h
      exact ⟨by rw [h], h ▸ hk⟩
    · simp only [if_neg hk] at h
      exact absurd h (by simp)

/-- A pass whose frame matches a record is the candidate-type report followed by
the publish with retry of the message built from the record. -/
theorem pollCycle_matched (h : Host) (c : config) (inp : CycleInput) (st : LoopState)
    (frame : CEMIFRAME) (received lt : tm) (actual : device)
    (hmon : inp.monitor = Except.ok frame) (htime : h.localtime inp.tv_sec = some received)
    (hfind : findByGroupAddress c.devicelist (knx_group h.littleEndian frame.daddr)
      = Lookup.found actual)
    (hlt : (decodeValue h frame st.buffer (some received)).ltime = some lt) :
    pollCycle h c inp st
      = Outcome.after
          (match (decodeValue h frame st.buffer (some received)).eis_types with
            | none => []
            | some t => [Event.eis_types t])
          (publishRetry inp (buildTopic actual)
            (buildPayload (decodeValue h frame st.buffer (some received)).buffer lt)
            { count := st.count + 1, buffer := timeText lt }) := by
  obtain ⟨hs, hk⟩ := findByGroupAddress_found _ _ _ hfind
  simp only [pollCycle, hmon, htime, hs, hk, if_true, hlt]

/-- Every publish of `publishRetry` carries the topic and payload it was given,
and there is at least one. -/
theorem publishRetry_message (inp : CycleInput) (topic payload : String) (st : LoopState)
    (pre : List Event) (hpre : ∀ e ∈ pre, ∃ x, e = Event.eis_types x) :
    Event.publish topic payload ∈ (Outcome.after pre (publishRetry inp topic payload st)).trace ∧
    ∀ t p, Event.publish t p ∈ (Outcome.after pre (publishRetry inp topic payload st)).trace →
      t = topic ∧ p = payload := by
  have hno : ∀ t p, Event.publish t p ∉ pre := by
    intro t p hm
    obtain ⟨x, hx⟩ := hpre _ hm
    exact absurd hx (by simp)
  unfold publishRetry
  split_ifs <;> simp only [Outcome.after, Outcome.trace] <;> constructor <;>
    first
    | (apply List.mem_append_right; simp)
    | (intro t p hm
       rcases List.mem_append.mp hm with hm | hm
       · exact absurd hm (hno t p)
       · simp at hm
         exact hm)

/-- C5: for every matched record, value text and time in the calendar range, the
message of the polling loop has the topic
`iot-2/type/<event>/id/<name>/evt/<type>/fmt/json` and the payload
`{"d":{"value":"<v>","date":"<YYYY/MM/DD>","time":"<HH:MM:SS>"}}` whose date
fields are the 4, 2 and 2 zero-padded digits of year, month and day and whose
time fields are the 2, 2 and 2 zero-padded digits of hour, minute and second;
every publish of the pass carries this topic and payload; the record
(Temperature, Boiler, Measurement) gives the topic
`iot-2/type/Temperature/id/Boiler/evt/Measurement/fmt/json`. -/
theorem published_message_format (h : Host) (c : config) (inp : CycleInput) (st : LoopState)
    (frame : CEMIFRAME) (received lt : tm) (actual : device)
    (hmon : inp.monitor = Except.ok frame) (htime : h.localtime inp.tv_sec = some received)
    (hfind : findByGroupAddress c.devicelist (knx_group h.littleEndian frame.daddr)
      = Lookup.found actual)
    (hlt : (decodeValue h frame st.buffer (some received)).ltime = some lt)
    (hcal : calendarRange lt) :
    (∀ v : String, buildPayload v lt
      = "\x7b\"d\":\x7b\"value\":\"" ++ v ++ "\",\"date\":\""
          ++ fourDigits (lt.tm_year + 1900).toNat ++ "/" ++ twoDigits (lt.tm_mon + 1).toNat
          ++ "/" ++ twoDigits lt.tm_mday.toNat
          ++ "\",\"time\":\""
          ++ twoDigits lt.tm_hour.toNat ++ ":" ++ twoDigits lt.tm_min.toNat ++ ":"
          ++ twoDigits lt.tm_sec.toNat ++ "\"\x7d\x7d") ∧
    buildTopic actual
      = "iot-2/type/" ++ actual.event ++ "/id/" ++ actual.name ++ "/evt/" ++ actual.type
          ++ "/fmt/json" ∧
    Event.publish (buildTopic actual)
        (buildPayload (decodeValue h frame st.buffer (some received)).buffer lt)
      ∈ (pollCycle h c inp st).trace ∧
    (∀ t p, Event.publish t p ∈ (pollCycle h c inp st).trace →
      t = buildTopic actual ∧
      p = buildPayload (decodeValue h frame st.buffer (some received)).buffer lt) ∧
    (actual.event = "Temperature" → actual.name = "Boiler" → actual.type = "Measurement" →
      buildTopic actual = "iot-2/type/Temperature/id/Boiler/evt/Measurement/fmt/json") := by
  have hreport : ∀ e ∈ (match (decodeValue h frame st.buffer (some received)).eis_types with
      | none => []
      | some t => [Event.eis_types t]), ∃ x, e = Event.eis_types x := by
    intro e he
    cases hd : (decodeValue h frame st.buffer (some received)).eis_types with
    | none => rw [hd] at he; exact absurd he (List.not_mem_nil e)
    | some x => rw [hd] at he; exact ⟨x, by simpa using he⟩
  have hm := publishRetry_message inp (buildTopic actual)
    (buildPayload (decodeValue h frame st.buffer (some received)).buffer lt)
    { count := st.count + 1, buffer := timeText lt } _ hreport
  rw [← pollCycle_matched h c inp st frame received lt actual hmon htime hfind hlt] at hm
  refine ⟨?_, rfl, hm.1, hm.2, ?_⟩
  · intro v
    simp only [buildPayload, dateText_eq lt hcal, timeText_eq lt hcal, String.append_assoc]
  · intro e1 e2 e3
    simp only [buildTopic, e1, e2, e3]
    decide

/-- Witness of C5: scenario 1 of the specification on the sample host. -/
theorem published_message_format_witness :
    Event.publish "iot-2/type/Temperature/id/Boiler/evt/Measurement/fmt/json"
        "\x7b\"d\":\x7b\"value\":\"42.00\",\"date\":\"2016/07/19\",\"time\":\"15:55:29\"\x7d\x7d"
      ∈ (pollCycle sampleHost boilerConfig (sampleInput 0 1 0 0) (LoopState.mk 0 "")).trace :=
  (published_message_format sampleHost boilerConfig (sampleInput 0 1 0 0) (LoopState.mk 0 "")
    sampleFrame (tm.mk 29 55 15 19 6 116) (tm.mk 29 55 15 19 6 116)
    (device.mk "0/0/5" "Boiler" "Temperature" "Measurement")
    rfl rfl (by decide) (by decide) (by decide)).2.2.1

/-! ## Properties: inbound handler -/

theorem findByName_found (l : List device) (k : String) (d : device)
    (h : findByName l k = Lookup.found d) : scanName k l = some d ∧ d.name = k := by
  unfold findByName at h
  cases hs : scanName k l with
  | none => rw [hs] at h; exact absurd h (by simp)
  | some a =>
    rw [hs] at h
    by_cases hk : a.name = k
    · simp only [if_pos hk] at h
      injection h with h
      exact ⟨by rw [h], h ▸ hk⟩
    · simp only [if_neg hk] at h
      exact absurd h (by simp)

/-- The keyword table of `msgarrvd`: each of the six keywords sets `eis` and
`p_val`; any other keyword leaves `eis` at its indeterminate entry value and
`p_val` at NULL. -/
theorem selectAction_table (u : Nat) (v k : String) :
    selectAction u "BYTE" v = Selection.mk 1 (PVal.value_byte v) none ∧
    selectAction u "INT" v = Selection.mk 10 (PVal.value_integer v) none ∧
    selectAction u "INT32" v = Selection.mk 11 (PVal.value_int32 v) none ∧
    selectAction u "FLOAT" v = Selection.mk 9 (PVal.value_float v) none ∧
    selectAction u "CHAR" v
      = Selection.mk 13 (PVal.value_char (v.data.headD (Char.ofNat 0))) none ∧
    selectAction u "STRING" v = Selection.mk 15 (PVal.string v) (some v) ∧
    (k ≠ "BYTE" → k ≠ "INT" → k ≠ "INT32" → k ≠ "FLOAT" → k ≠ "CHAR" → k ≠ "STRING" →
      selectAction u k v = Selection.mk u PVal.null none) := by
  refine ⟨?_, ?_, ?_, ?_, ?_, ?_, ?_⟩
  · simp [selectAction]
  · simp [selectAction]
  · simp [selectAction]
  · simp [selectAction]
  · simp [selectAction]
  · simp [selectAction]
  · intro h1 h2 h3 h4 h5 h6
    simp [selectAction, h1, h2, h3, h4, h5, h6]

/-- The handler on a message that parses, names a registered device, and gets
its block from `malloc`: the conversion is attempted with the selected type,
and its result decides between the bus write and `exit (-5)`. -/
theorem msgarrvd_registered (h : Host) (c : config) (inp : HandlerInput)
    (message : List Char) (ty name action value : String) (actual : device)
    (hlen : message.length < 1024)
    (hparse : parsePayload (message.takeWhile (fun x => x ≠ Char.ofNat 0))
      = some (ty, name, action, value))
    (hfind : findByName c.devicelist name = Lookup.found actual)
    (hmalloc : inp.malloc_ok = true) :
    msgarrvd h c inp message
      = match h.enmx_value2eis (selectAction inp.uninit_eis action value).eis
            (selectAction inp.uninit_eis action value).p_val with
        | none =>
          Outcome.exited (-5)
            [Event.enmx_open,
             Event.enmx_value2eis (selectAction inp.uninit_eis action value).eis
               (selectAction inp.uninit_eis action value).p_val,
             Event.log "Error in value conversion\n"]
        | some data =>
          match (if (selectAction inp.uninit_eis action value).eis ≠ 15
                 then some (h.enmx_EISsizeKNX (selectAction inp.uninit_eis action value).eis)
                 else (selectAction inp.uninit_eis action value).string.map String.length) with
          | none => Outcome.fault
          | some len =>
            Outcome.done 1
              ([Event.enmx_open,
                Event.enmx_value2eis (selectAction inp.uninit_eis action value).eis
                  (selectAction inp.uninit_eis action value).p_val,
                Event.enmx_write (h.enmx_getaddress actual.knx % 65536) len data]
               ++ (if inp.write_rc ≠ 0 then [Event.log "Unable to send command: %s\n"] else [])
               ++ [Event.enmx_close]) := by
  obtain ⟨hs, hk⟩ := findByName_found _ _ _ hfind
  simp only [msgarrvd, Nat.not_le.mpr hlen, if_false, hparse, hs, hk, if_true, hmalloc]
  rfl

/-- C6, as stated: on the body `x:"Temperature":"Boiler":"FLOAT":"21.5"` the
first quote-delimited token the handler discards is `Temperature`, the token it
keeps as category is the colon between the fields, and the last `strtok` finds
nothing left, so `strcpy` gets NULL: the handler faults and writes nothing. -/
theorem inbound_scenario_as_stated_faults :
    strtok [':'] "x:\"Temperature\":\"Boiler\":\"FLOAT\":\"21.5\"".data
      = some ("x".data, "\"Temperature\":\"Boiler\":\"FLOAT\":\"21.5\"".data) ∧
    strtok ['"'] "\"Temperature\":\"Boiler\":\"FLOAT\":\"21.5\"".data
      = some ("Temperature".data, ":\"Boiler\":\"FLOAT\":\"21.5\"".data) ∧
    strtok ['"'] ":\"Boiler\":\"FLOAT\":\"21.5\"".data
      = some (":".data, "Boiler\":\"FLOAT\":\"21.5\"".data) ∧
    parsePayload "x:\"Temperature\":\"Boiler\":\"FLOAT\":\"21.5\"".data = none ∧
    findByName boilerConfig.devicelist "Boiler"
      = Lookup.found (device.mk "0/0/5" "Boiler" "Temperature" "Measurement") ∧
    msgarrvd sampleHost boilerConfig (HandlerInput.mk 0 true 0)
      "x:\"Temperature\":\"Boiler\":\"FLOAT\":\"21.5\"".data = Outcome.fault := by
  decide

/-- C6, amended: on the body `x: "Temperature":"Boiler":"FLOAT":"21.5"`, with a
blank between the first colon and the first quote, the handler extracts
Temperature, Boiler, FLOAT and 21.5, finds the record named Boiler, converts
with EIS type 9 and, when `malloc` and the conversion succeed, writes the
encoded bytes to the address of that record. -/
theorem inbound_float_write (h : Host) (c : config) (inp : HandlerInput) (data : List Nat)
    (hreg : ∃ d ∈ c.devicelist, d.name = "Boiler") (hmalloc : inp.malloc_ok = true)
    (hconv : h.enmx_value2eis 9 (PVal.value_float "21.5") = some data) :
    parsePayload "x: \"Temperature\":\"Boiler\":\"FLOAT\":\"21.5\"".data
      = some ("Temperature", "Boiler", "FLOAT", "21.5") ∧
    ∃ actual ∈ c.devicelist, actual.name = "Boiler" ∧
      findByName c.devicelist "Boiler" = Lookup.found actual ∧
      msgarrvd h c inp "x: \"Temperature\":\"Boiler\":\"FLOAT\":\"21.5\"".data
        = Outcome.done 1
            ([Event.enmx_open, Event.enmx_value2eis 9 (PVal.value_float "21.5"),
              Event.enmx_write (h.enmx_getaddress actual.knx % 65536) (h.enmx_EISsizeKNX 9) data]
             ++ (if inp.write_rc ≠ 0 then [Event.log "Unable to send command: %s\n"] else [])
             ++ [Event.enmx_close]) := by
  have hp : parsePayload "x: \"Temperature\":\"Boiler\":\"FLOAT\":\"21.5\"".data
      = some ("Temperature", "Boiler", "FLOAT", "21.5") := by decide
  have htw : ("x: \"Temperature\":\"Boiler\":\"FLOAT\":\"21.5\"".data).takeWhile
      (fun x => x ≠ Char.ofNat 0) = "x: \"Temperature\":\"Boiler\":\"FLOAT\":\"21.5\"".data := by
    decide
  have hne : c.devicelist ≠ [] := by
    obtain ⟨d, hd, _⟩ := hreg
    exact List.ne_nil_of_mem hd
  obtain ⟨actual, hmem, hname, hfind⟩ :=
    (lookup_on_nonempty_registry c.devicelist "Boiler" hne).2.2.1 hreg
  refine ⟨hp, actual, hmem, hname, hfind, ?_⟩
  rw [msgarrvd_registered h c inp _ "Temperature" "Boiler" "FLOAT" "21.5" actual (by decide)
    (by rw [htw]; exact hp) hfind hmalloc]
  have hsel := (selectAction_table inp.uninit_eis "21.5" "FLOAT").2.2.2.1
  simp only [hsel, hconv]
  rfl

/-- Witness of C6 amended: scenario 2 with the blank, on the sample host. -/
theorem inbound_float_write_witness :
    msgarrvd sampleHost boilerConfig (HandlerInput.mk 0 true 0)
        "x: \"Temperature\":\"Boiler\":\"FLOAT\":\"21.5\"".data
      = Outcome.done 1
          [Event.enmx_open, Event.enmx_value2eis 9 (PVal.value_float "21.5"),
           Event.enmx_write 5 4 [0x41, 0xac, 0x00, 0x00], Event.enmx_close] := by
  obtain ⟨_, actual, hmem, _, _, hrun⟩ :=
    inbound_float_write sampleHost boilerConfig (HandlerInput.mk 0 true 0)
      [0x41, 0xac, 0x00, 0x00]
      ⟨device.mk "0/0/5" "Boiler" "Temperature" "Measurement", by decide, rfl⟩ rfl rfl
  have ha : actual = device.mk "0/0/5" "Boiler" "Temperature" "Measurement" := by
    simpa [boilerConfig] using hmem
  rw [hrun, ha]
  decide

/-- C7, at an unknown keyword: for the registered device Boiler and the keyword
`BOGUS` the handler does not drop the message. `eis` keeps its indeterminate
entry value `u` and `p_val` stays NULL, the conversion `enmx_value2eis (u, NULL)`
is attempted, and its result leads to `exit (-5)` or to a bus write; on the
sample host the write is issued. -/
theorem unknown_keyword_reaches_codec (h : Host) (u : Nat) (w : Int) :
    selectAction u "BOGUS" "1" = Selection.mk u PVal.null none ∧
    msgarrvd h boilerConfig (HandlerInput.mk u true w)
        "x: \"Temperature\":\"Boiler\":\"BOGUS\":\"1\"".data
      = (match h.enmx_value2eis u PVal.null with
        | none =>
          Outcome.exited (-5)
            [Event.enmx_open, Event.enmx_value2eis u PVal.null,
             Event.log "Error in value conversion\n"]
        | some data =>
          if u ≠ 15 then
            Outcome.done 1
              ([Event.enmx_open, Event.enmx_value2eis u PVal.null,
                Event.enmx_write (h.enmx_getaddress "0/0/5" % 65536) (h.enmx_EISsizeKNX u) data]
               ++ (if w ≠ 0 then [Event.log "Unable to send command: %s\n"] else [])
               ++ [Event.enmx_close])
          else Outcome.fault) ∧
    msgarrvd sampleHost boilerConfig (HandlerInput.mk 0 true 0)
        "x: \"Temperature\":\"Boiler\":\"BOGUS\":\"1\"".data
      = Outcome.done 1
          [Event.enmx_open, Event.enmx_value2eis 0 PVal.null,
           Event.enmx_write 5 4 [0x41, 0xac, 0x00, 0x00], Event.enmx_close] := by
  have hsel : selectAction u "BOGUS" "1" = Selection.mk u PVal.null none :=
    (selectAction_table u "1" "BOGUS").2.2.2.2.2.2 (by decide) (by decide) (by decide)
      (by decide) (by decide) (by decide)
  refine ⟨hsel, ?_, by decide⟩
  have hp : parsePayload (("x: \"Temperature\":\"Boiler\":\"BOGUS\":\"1\"".data).takeWhile
      (fun x => x ≠ Char.ofNat 0)) = some ("Temperature", "Boiler", "BOGUS", "1") := by decide
  have hfind : findByName boilerConfig.devicelist "Boiler"
      = Lookup.found (device.mk "0/0/5" "Boiler" "Temperature" "Measurement") := by decide
  rw [msgarrvd_registered h boilerConfig (HandlerInput.mk u true w) _ "Temperature" "Boiler"
    "BOGUS" "1" _ (by decide) hp hfind rfl]
  simp only [hsel]
  cases h.enmx_value2eis u PVal.null with
  | none => rfl
  | some data =>
    by_cases hu : u = 15
    · simp [hu]
    · simp [hu]

/-! ## Properties: publish retry and monitor faults -/

/-- C8, as stated: when the first publish fails, the transport reports
disconnected and the reconnect fails, the pass calls publish once only and ends
the process with `exit (-1)`. -/
theorem failed_reconnect_exits :
    pollCycle sampleHost boilerConfig (sampleInput 1 0 (-1) 0) (LoopState.mk 0 "")
      = Outcome.exited (-1)
          [Event.eis_types "5, 10",
           Event.publish "iot-2/type/Temperature/id/Boiler/evt/Measurement/fmt/json"
             "\x7b\"d\":\x7b\"value\":\"42.00\",\"date\":\"2016/07/19\",\"time\":\"15:55:29\"\x7d\x7d",
           Event.log "Published to MQTT, return code %d\n", Event.sleep 1,
           Event.log "Reconnecting MQTT Client\n", Event.mqtt_connect,
           Event.log "Failed to connect to MQTT, return code %d\n"] ∧
    countPublish
      (pollCycle sampleHost boilerConfig (sampleInput 1 0 (-1) 0) (LoopState.mk 0 "")).trace = 1 ∧
    exitStatus (-1) = 255 := by
  decide

/-- C8, amended: for every combination of transport answers the publish with
retry makes at most one reconnect and re-subscribes only after a reconnect;
publish is called once when the first attempt succeeds; when it fails and the
transport is connected, or the reconnect succeeds, publish is called exactly
twice and the loop goes on whatever the retry returns; when it fails, the
transport is disconnected and the reconnect fails, publish was called once and
the process ends with `exit (-1)`. -/
theorem publish_retry_policy (inp : CycleInput) (topic payload : String) (st : LoopState) :
    countConnect (publishRetry inp topic payload st).trace ≤ 1 ∧
    countSubscribe (publishRetry inp topic payload st).trace
      ≤ countConnect (publishRetry inp topic payload st).trace ∧
    (inp.publish_rc = 0 →
      publishRetry inp topic payload st = Outcome.done st [Event.publish topic payload]) ∧
    (inp.publish_rc ≠ 0 → inp.isConnected ≠ 0 →
      countPublish (publishRetry inp topic payload st).trace = 2 ∧
      countConnect (publishRetry inp topic payload st).trace = 0 ∧
      ∃ t, publishRetry inp topic payload st = Outcome.done st t) ∧
    (inp.publish_rc ≠ 0 → inp.isConnected = 0 → inp.connect_rc = MQTTCLIENT_SUCCESS →
      countPublish (publishRetry inp topic payload st).trace = 2 ∧
      countConnect (publishRetry inp topic payload st).trace = 1 ∧
      countSubscribe (publishRetry inp topic payload st).trace = 1 ∧
      ∃ t, publishRetry inp topic payload st = Outcome.done st t) ∧
    (inp.publish_rc ≠ 0 → inp.isConnected = 0 → inp.connect_rc ≠ MQTTCLIENT_SUCCESS →
      countPublish (publishRetry inp topic payload st).trace = 1 ∧
      countConnect (publishRetry inp topic payload st).trace = 1 ∧
      countSubscribe (publishRetry inp topic payload st).trace = 0 ∧
      ∃ t, publishRetry inp topic payload st = Outcome.exited (-1) t) := by
  refine ⟨?_, ?_, ?_, ?_, ?_, ?_⟩
  · unfold publishRetry
    split_ifs <;> simp [Outcome.trace, countConnect, List.countP_cons]
  · unfold publishRetry
    split_ifs <;> simp [Outcome.trace, countConnect, countSubscribe, List.countP_cons]
  · intro h1
    simp [publishRetry, h1]
  · intro h1 h2
    simp [publishRetry, h1, h2, Outcome.trace, countPublish, countConnect, List.countP_cons]
  · intro h1 h2 h3
    simp [publishRetry, h1, h2, h3, Outcome.trace, countPublish, countConnect, countSubscribe,
      List.countP_cons]
  · intro h1 h2 h3
    simp [publishRetry, h1, h2, h3, Outcome.trace, countPublish, countConnect, countSubscribe,
      List.countP_cons]

/-- Witness of C8 amended: scenario 3 of the specification, a failed publish on
a disconnected transport, a successful reconnect, and a retry that fails too:
two publish calls, one reconnect, one subscribe, and the loop goes on. -/
theorem publish_retry_policy_witness :
    countPublish (publishRetry (sampleInput 1 0 0 1) "t" "p" (LoopState.mk 1 "")).trace = 2 ∧
    countConnect (publishRetry (sampleInput 1 0 0 1) "t" "p" (LoopState.mk 1 "")).trace = 1 ∧
    countSubscribe (publishRetry (sampleInput 1 0 0 1) "t" "p" (LoopState.mk 1 "")).trace = 1 ∧
    ∃ t, publishRetry (sampleInput 1 0 0 1) "t" "p" (LoopState.mk 1 "")
      = Outcome.done (LoopState.mk 1 "") t :=
  (publish_retry_policy (sampleInput 1 0 0 1) "t" "p" (LoopState.mk 1 "")).2.2.2.2.1
    (by decide) (by decide) (by decide)

/-- C9, as stated: with a codec that reports failure, the message for the
registered device Boiler ends the process with `exit (-5)`, status 251. -/
theorem encode_failure_exits_sample :
    msgarrvd rejectingHost boilerConfig (HandlerInput.mk 0 true 0)
        "x: \"Temperature\":\"Boiler\":\"FLOAT\":\"21.5\"".data
      = Outcome.exited (-5)
          [Event.enmx_open, Event.enmx_value2eis 9 (PVal.value_float "21.5"),
           Event.log "Error in value conversion\n"] ∧
    exitStatus (-5) = 251 ∧ exitStatus (-5) ≠ 0 := by
  decide

/-- C9, amended: for every inbound message that parses, whose device is
registered, and whose conversion by `enmx_value2eis` reports failure (the
block from `malloc` being there), the handler logs the failure, issues no bus
write, and ends the process with `exit (-5)`, a non-zero status. -/
theorem encode_failure_exits (h : Host) (c : config) (inp : HandlerInput)
    (message : List Char) (ty name action value : String) (actual : device)
    (hlen : message.length < 1024)
    (hparse : parsePayload (message.takeWhile (fun x => x ≠ Char.ofNat 0))
      = some (ty, name, action, value))
    (hfind : findByName c.devicelist name = Lookup.found actual)
    (hmalloc : inp.malloc_ok = true)
    (hconv : h.enmx_value2eis (selectAction inp.uninit_eis action value).eis
      (selectAction inp.uninit_eis action value).p_val = none) :
    msgarrvd h c inp message
      = Outcome.exited (-5)
          [Event.enmx_open,
           Event.enmx_value2eis (selectAction inp.uninit_eis action value).eis
             (selectAction inp.uninit_eis action value).p_val,
           Event.log "Error in value conversion\n"] ∧
    Event.log "Error in value conversion\n" ∈ (msgarrvd h c inp message).trace ∧
    countWrite (msgarrvd h c inp message).trace = 0 ∧
    exitStatus (-5) = 251 := by
  have hrun := msgarrvd_registered h c inp message ty name action value actual hlen hparse
    hfind hmalloc
  rw [hconv] at hrun
  refine ⟨hrun, ?_, ?_, by decide⟩
  · rw [hrun]
    simp [Outcome.trace]
  · rw [hrun]
    simp [Outcome.trace, countWrite, List.countP_cons]

/-- Witness of C9 amended: the FLOAT message on the host whose codec rejects. -/
theorem encode_failure_exits_witness :
    countWrite (msgarrvd rejectingHost boilerConfig (HandlerInput.mk 0 true 0)
      "x: \"Temperature\":\"Boiler\":\"FLOAT\":\"21.5\"".data).trace = 0 ∧
    exitStatus (-5) = 251 :=
  (encode_failure_exits rejectingHost boilerConfig (HandlerInput.mk 0 true 0)
    "x: \"Temperature\":\"Boiler\":\"FLOAT\":\"21.5\"".data "Temperature" "Boiler" "FLOAT" "21.5"
    (device.mk "0/0/5" "Boiler" "Temperature" "Measurement")
    (by decide) (by decide) (by decide) rfl (by decide)).2.2

/-- C10, as stated: a communication failure and a server abort are different
causes and end the process with the same argument of `exit`, hence the same
status 252. -/
theorem monitor_fault_statuses_coincide :
    EnmxError.ENMX_E_COMMUNICATION ≠ EnmxError.ENMX_E_SERVER_ABORTED ∧
    pollCycle sampleHost boilerConfig (errorInput EnmxError.ENMX_E_COMMUNICATION)
        (LoopState.mk 0 "")
      = Outcome.exited (-4) [Event.log "Error on write: %s\n", Event.enmx_close] ∧
    pollCycle sampleHost boilerConfig (errorInput EnmxError.ENMX_E_SERVER_ABORTED)
        (LoopState.mk 0 "")
      = Outcome.exited (-4) [Event.log "EOF reached: %s\n", Event.enmx_close] ∧
    exitStatus (-4) = 252 := by
  decide

/-- C10, amended: when the monitor returns no frame, each of the causes
communication failure, no-connection, wrong-usage, out-of-memory and
server-aborted ends the process with `exit (-4)`, the non-zero status 252,
the same for the five causes; a timeout does not end the process: the pass
leaves the loop state as it was and the loop goes on to the next poll. -/
theorem monitor_fault_classification (h : Host) (c : config) (inp : CycleInput)
    (st : LoopState) (e : EnmxError) (hmon : inp.monitor = Except.error e) :
    (e ∈ [EnmxError.ENMX_E_COMMUNICATION, EnmxError.ENMX_E_NO_CONNECTION,
          EnmxError.ENMX_E_WRONG_USAGE, EnmxError.ENMX_E_NO_MEMORY,
          EnmxError.ENMX_E_SERVER_ABORTED] →
      ∃ t, pollCycle h c inp st = Outcome.exited (-4) t) ∧
    exitStatus (-4) = 252 ∧ exitStatus (-4) ≠ 0 ∧
    (e = EnmxError.ENMX_E_TIMEOUT →
      pollCycle h c inp st = Outcome.done st [Event.log "No value received\n"] ∧
      ∀ (total : Int) (rest : List CycleInput), total = -1 ∨ st.count < total →
        mainLoop h c total (inp :: rest) st
          = Outcome.after [Event.log "No value received\n"] (mainLoop h c total rest st)) := by
  refine ⟨?_, by decide, by decide, ?_⟩
  · intro he
    simp only [List.mem_cons, List.mem_singleton, List.not_mem_nil, or_false] at he
    rcases he with rfl | rfl | rfl | rfl | rfl <;>
      (simp only [pollCycle, hmon, monitorError]; exact ⟨_, rfl⟩)
  · intro he
    subst he
    have hc : pollCycle h c inp st = Outcome.done st [Event.log "No value received\n"] := by
      simp only [pollCycle, hmon, monitorError]
    refine ⟨hc, ?_⟩
    intro total rest hcond
    simp only [mainLoop, if_pos hcond, hc]

/-- Witness of C10 amended: a timeout between two polls of a loop that runs
without a frame limit. -/
theorem monitor_fault_classification_witness :
    pollCycle sampleHost boilerConfig (errorInput EnmxError.ENMX_E_TIMEOUT) (LoopState.mk 0 "")
      = Outcome.done (LoopState.mk 0 "") [Event.log "No value received\n"] :=
  ((monitor_fault_classification sampleHost boilerConfig
    (errorInput EnmxError.ENMX_E_TIMEOUT) (LoopState.mk 0 "") EnmxError.ENMX_E_TIMEOUT rfl).2.2.2
    rfl).1

/-! ## Properties: decode dispatch -/

/-- The candidate types of a value-carrying frame, by length byte. -/
theorem eis_types_table (h : Host) (f : CEMIFRAME) (buffer : String) (ltime : Option tm)
    (hv : f.apci &&& (0x0080 ||| 0x0040) ≠ 0) :
    (f.length = 1 → (decodeValue h f buffer ltime).eis_types = some "1, 2, 7, 8") ∧
    (f.length = 2 → (decodeValue h f buffer ltime).eis_types
      = some (if 0x20 ≤ h.p_int 13 f ∧ h.p_int 13 f < 0x7f then "6, 14, 13" else "6, 14")) ∧
    (f.length = 3 → (decodeValue h f buffer ltime).eis_types = some "5, 10") ∧
    (f.length = 4 → (decodeValue h f buffer ltime).eis_types = some "3, 4") ∧
    (f.length = 5 → (decodeValue h f buffer ltime).eis_types = some "9, 11, 12") ∧
    (f.length ≠ 1 → f.length ≠ 2 → f.length ≠ 3 → f.length ≠ 4 → f.length ≠ 5 →
      (decodeValue h f buffer ltime).eis_types = some "15") := by
  refine ⟨?_, ?_, ?_, ?_, ?_, ?_⟩
  · intro hl
    simp only [decodeValue, if_pos hv, hl]
  · intro hl
    simp only [decodeValue, if_pos hv, hl]
  · intro hl
    simp only [decodeValue, if_pos hv, hl]
  · intro hl
    simp only [decodeValue, if_pos hv, hl]
  · intro hl
    simp only [decodeValue, if_pos hv, hl]
  · intro h1 h2 h3 h4 h5
    simp only [decodeValue, if_pos hv]

/-- A frame without the write and response bits reports no candidate types and
leaves the shared buffer and the time pointer alone. -/
theorem decodeValue_no_value (h : Host) (f : CEMIFRAME) (buffer : String) (ltime : Option tm)
    (hv : f.apci &&& (0x0080 ||| 0x0040) = 0) :
    decodeValue h f buffer ltime = Decoded.mk buffer ltime none := by
  simp only [decodeValue, hv, ne_eq, not_true_eq_false, if_false]

theorem reportedTypes_publishRetry (inp : CycleInput) (topic payload : String) (st : LoopState)
    (pre : List Event) :
    reportedTypes (Outcome.after pre (publishRetry inp topic payload st)).trace
      = reportedTypes pre := by
  unfold publishRetry
  split_ifs <;> simp [Outcome.after, Outcome.trace, reportedTypes, List.filterMap_append]

/-- A pass that does not fault reports exactly the candidate types the value
switch selected for its frame. -/
theorem pollCycle_reportedTypes (h : Host) (c : config) (inp : CycleInput) (st : LoopState)
    (f : CEMIFRAME) (received : tm)
    (hmon : inp.monitor = Except.ok f) (htime : h.localtime inp.tv_sec = some received)
    (hnf : pollCycle h c inp st ≠ Outcome.fault) :
    reportedTypes (pollCycle h c inp st).trace
      = (decodeValue h f st.buffer (some received)).eis_types.toList := by
  have hrep : reportedTypes (match (decodeValue h f st.buffer (some received)).eis_types with
      | none => []
      | some t => [Event.eis_types t])
      = (decodeValue h f st.buffer (some received)).eis_types.toList := by
    cases (decodeValue h f st.buffer (some received)).eis_types <;> rfl
  simp only [pollCycle, hmon, htime] at hnf ⊢
  cases hs : scanKnx (knx_group h.littleEndian f.daddr) c.devicelist with
  | none => rw [hs] at hnf; exact absurd rfl hnf
  | some actual =>
    rw [hs] at hnf
    simp only [hs]
    by_cases hk : actual.knx = knx_group h.littleEndian f.daddr
    · simp only [if_pos hk] at hnf ⊢
      cases hl : (decodeValue h f st.buffer (some received)).ltime with
      | none => rw [hl] at hnf; exact absurd rfl hnf
      | some lt =>
        simp only [hl]
        rw [reportedTypes_publishRetry]
        exact hrep
    · simp only [if_neg hk]
      exact hrep

/-- The candidate line of a pass that receives a frame and whose receive time
converts is what the value switch selects for the frame. -/
theorem candidateLine_eq (h : Host) (inp : CycleInput) (st : LoopState) (f : CEMIFRAME)
    (received : tm) (hmon : inp.monitor = Except.ok f)
    (htime : h.localtime inp.tv_sec = some received) :
    candidateLine h inp st = (decodeValue h f st.buffer (some received)).eis_types.toList := by
  simp only [candidateLine, hmon, htime]
  cases (decodeValue h f st.buffer (some received)).eis_types <;> rfl

/-- C11, as stated: two value-carrying frames with length byte 2, to the same
address, report different candidate types: `6, 14, 13` for the data byte
`0x41`, a printable character, and `6, 14` for the data byte `0x01`. -/
theorem printable_char_changes_candidates :
    (frameWith 2 0x80 [0x41]).length = 2 ∧ (frameWith 2 0x80 [0x01]).length = 2 ∧
    reportedTypes (pollCycle payloadHost boilerConfig (frameInput (frameWith 2 0x80 [0x41]))
      (LoopState.mk 0 "")).trace = ["6, 14, 13"] ∧
    reportedTypes (pollCycle payloadHost boilerConfig (frameInput (frameWith 2 0x80 [0x01]))
      (LoopState.mk 0 "")).trace = ["6, 14"] ∧
    candidateLine payloadHost (frameInput (frameWith 2 0x80 [0x41])) (LoopState.mk 0 "")
      = ["6, 14, 13"] ∧
    candidateLine payloadHost (frameInput (frameWith 2 0x80 [0x01])) (LoopState.mk 0 "")
      = ["6, 14"] := by
  decide

/-- C11, amended: for two value-carrying frames with the same length byte, the
candidate types the polling loop reports are the same whenever that length is
not 2, whatever the payload bytes, the registry and the rest of the pass are:
the line is written before the scan and the payload build, so it does not
depend on whether the pass faults afterwards. A frame of length 1 reports
exactly `1, 2, 7, 8`; a frame of length 2 reports `6, 14, 13` when the value
decoded as EIS 13 is a printable character and `6, 14` otherwise. In a pass
that does not fault the reported line is the candidate line of the trace. -/
theorem candidate_types_by_length (h : Host) (inp1 inp2 : CycleInput)
    (st1 st2 : LoopState) (f1 f2 : CEMIFRAME) (r1 r2 : tm)
    (hmon1 : inp1.monitor = Except.ok f1) (hmon2 : inp2.monitor = Except.ok f2)
    (ht1 : h.localtime inp1.tv_sec = some r1) (ht2 : h.localtime inp2.tv_sec = some r2)
    (hv1 : f1.apci &&& (0x0080 ||| 0x0040) ≠ 0) (hv2 : f2.apci &&& (0x0080 ||| 0x0040) ≠ 0)
    (hlen : f1.length = f2.length) :
    (f1.length ≠ 2 → candidateLine h inp1 st1 = candidateLine h inp2 st2) ∧
    (f1.length = 1 →
      candidateLine h inp1 st1 = ["1, 2, 7, 8"] ∧ candidateLine h inp2 st2 = ["1, 2, 7, 8"]) ∧
    (f1.length = 2 →
      candidateLine h inp1 st1
        = [if 0x20 ≤ h.p_int 13 f1 ∧ h.p_int 13 f1 < 0x7f then "6, 14, 13" else "6, 14"] ∧
      candidateLine h inp2 st2
        = [if 0x20 ≤ h.p_int 13 f2 ∧ h.p_int 13 f2 < 0x7f then "6, 14, 13" else "6, 14"]) ∧
    (∀ c : config,
      (pollCycle h c inp1 st1 ≠ Outcome.fault →
        reportedTypes (pollCycle h c inp1 st1).trace = candidateLine h inp1 st1) ∧
      (pollCycle h c inp2 st2 ≠ Outcome.fault →
        reportedTypes (pollCycle h c inp2 st2).trace = candidateLine h inp2 st2)) := by
  have T1 := eis_types_table h f1 st1.buffer (some r1) hv1
  have T2 := eis_types_table h f2 st2.buffer (some r2) hv2
  have C1 := candidateLine_eq h inp1 st1 f1 r1 hmon1 ht1
  have C2 := candidateLine_eq h inp2 st2 f2 r2 hmon2 ht2
  refine ⟨?_, ?_, ?_, ?_⟩
  · intro hne2
    rw [C1, C2]
    by_cases l1 : f1.length = 1
    · rw [T1.1 l1, T2.1 (hlen ▸ l1)]
    · by_cases l3 : f1.length = 3
      · rw [T1.2.2.1 l3, T2.2.2.1 (hlen ▸ l3)]
      · by_cases l4 : f1.length = 4
        · rw [T1.2.2.2.1 l4, T2.2.2.2.1 (hlen ▸ l4)]
        · by_cases l5 : f1.length = 5
          · rw [T1.2.2.2.2.1 l5, T2.2.2.2.2.1 (hlen ▸ l5)]
          · rw [T1.2.2.2.2.2 l1 hne2 l3 l4 l5,
              T2.2.2.2.2.2 (hlen ▸ l1) (hlen ▸ hne2) (hlen ▸ l3) (hlen ▸ l4) (hlen ▸ l5)]
  · intro l1
    rw [C1, C2, T1.1 l1, T2.1 (hlen ▸ l1)]
    exact ⟨rfl, rfl⟩
  · intro l2
    rw [C1, C2, T1.2.1 l2, T2.2.1 (hlen ▸ l2)]
    exact ⟨rfl, rfl⟩
  · intro c
    constructor
    · intro hnf
      rw [C1]
      exact pollCycle_reportedTypes h c inp1 st1 f1 r1 hmon1 ht1 hnf
    · intro hnf
      rw [C2]
      exact pollCycle_reportedTypes h c inp2 st2 f2 r2 hmon2 ht2 hnf

/-- Witness of C11 amended: two group writes of length 4 to the registered
address, one whose pass publishes and one whose pass faults while the payload
is built, report the same candidate line. -/
theorem candidate_types_by_length_witness :
    pollCycle payloadHost boilerConfig (frameInput (frameWith 4 0x80 [0, 0, 1]))
      (LoopState.mk 0 "") = Outcome.fault ∧
    candidateLine payloadHost (frameInput (frameWith 4 0x80 [0, 0, 0])) (LoopState.mk 0 "")
      = ["3, 4"] ∧
    candidateLine payloadHost (frameInput (frameWith 4 0x80 [0, 0, 0])) (LoopState.mk 0 "")
      = candidateLine payloadHost (frameInput (frameWith 4 0x80 [0, 0, 1])) (LoopState.mk 0 "") :=
  ⟨by decide, by decide,
    (candidate_types_by_length payloadHost (frameInput (frameWith 4 0x80 [0, 0, 0]))
      (frameInput (frameWith 4 0x80 [0, 0, 1])) (LoopState.mk 0 "") (LoopState.mk 0 "")
      (frameWith 4 0x80 [0, 0, 0]) (frameWith 4 0x80 [0, 0, 1]) (tm.mk 29 55 15 19 6 116)
      (tm.mk 29 55 15 19 6 116) rfl rfl (by decide) (by decide) (by decide) (by decide) rfl).1
      (by decide)⟩

/-! ## Properties: time stamp and value text -/

/-- The value switch replaces the time pointer exactly for a value-carrying frame
of length 4, by `localtime` of the decoded date; otherwise it keeps it. -/
theorem decodeValue_ltime (h : Host) (f : CEMIFRAME) (buffer : String) (ltime : Option tm) :
    (f.apci &&& (0x0080 ||| 0x0040) ≠ 0 → f.length = 4 →
      (decodeValue h f buffer ltime).ltime = h.localtime (h.p_time f)) ∧
    (f.apci &&& (0x0080 ||| 0x0040) = 0 ∨ f.length ≠ 4 →
      (decodeValue h f buffer ltime).ltime = ltime) := by
  constructor
  · intro hv hl
    simp only [decodeValue, if_pos hv, hl]
  · intro hc
    by_cases hv : f.apci &&& (0x0080 ||| 0x0040) = 0
    · rw [decodeValue_no_value h f buffer ltime hv]
    · have hl : f.length ≠ 4 := by
        rcases hc with hc | hc
        · exact absurd hc hv
        · exact hc
      unfold decodeValue
      rw [if_pos hv]
      split <;> first | rfl | (rename_i heq; exact absurd heq hl)

/-- For a matched frame that is not a value-carrying frame of length 4, every
publish of the pass carries the date and time of the receive time stamp. -/
theorem receive_time_published (h : Host) (c : config) (inp : CycleInput) (st : LoopState)
    (f : CEMIFRAME) (received : tm) (actual : device)
    (hmon : inp.monitor = Except.ok f) (htime : h.localtime inp.tv_sec = some received)
    (hfind : findByGroupAddress c.devicelist (knx_group h.littleEndian f.daddr)
      = Lookup.found actual)
    (hnot : f.apci &&& (0x0080 ||| 0x0040) = 0 ∨ f.length ≠ 4) :
    Event.publish (buildTopic actual)
        (buildPayload (decodeValue h f st.buffer (some received)).buffer received)
      ∈ (pollCycle h c inp st).trace ∧
    ∀ t p, Event.publish t p ∈ (pollCycle h c inp st).trace →
      p = buildPayload (decodeValue h f st.buffer (some received)).buffer received := by
  have hlt := (decodeValue_ltime h f st.buffer (some received)).2 hnot
  have hreport : ∀ e ∈ (match (decodeValue h f st.buffer (some received)).eis_types with
      | none => []
      | some t => [Event.eis_types t]), ∃ x, e = Event.eis_types x := by
    intro e he
    cases hd : (decodeValue h f st.buffer (some received)).eis_types with
    | none => rw [hd] at he; exact absurd he (List.not_mem_nil e)
    | some x => rw [hd] at he; exact ⟨x, by simpa using he⟩
  have hm := publishRetry_message inp (buildTopic actual)
    (buildPayload (decodeValue h f st.buffer (some received)).buffer received)
    { count := st.count + 1, buffer := timeText received } _ hreport
  rw [← pollCycle_matched h c inp st f received received actual hmon htime hfind hlt] at hm
  exact ⟨hm.1, fun t p hp => (hm.2 t p hp).2⟩

/-- C12, at a frame of length 4: the pass is received at 2016/07/19 15:55:29, the
frame is a group write of length 4 to the registered address `0/0/5`. When its
date value decodes to the epoch, the published date and time are 1970/01/01
and 00:00:00, not those of the receive time stamp; when `localtime` has no
result for the decoded value, the pass faults while building the payload. -/
theorem date_frame_overwrites_receive_time :
    payloadHost.localtime (frameInput (frameWith 4 0x80 [0, 0, 0])).tv_sec
      = some (tm.mk 29 55 15 19 6 116) ∧
    pollCycle payloadHost boilerConfig (frameInput (frameWith 4 0x80 [0, 0, 0]))
        (LoopState.mk 0 "")
      = Outcome.done (LoopState.mk 1 "00:00:00")
          [Event.eis_types "3, 4",
           Event.publish "iot-2/type/Temperature/id/Boiler/evt/Measurement/fmt/json"
             "\x7b\"d\":\x7b\"value\":\"00:00:00\",\"date\":\"1970/01/01\",\"time\":\"00:00:00\"\x7d\x7d"] ∧
    pollCycle payloadHost boilerConfig (frameInput (frameWith 3 0x80 [0, 0]))
        (LoopState.mk 0 "")
      = Outcome.done (LoopState.mk 1 "15:55:29")
          [Event.eis_types "5, 10",
           Event.publish "iot-2/type/Temperature/id/Boiler/evt/Measurement/fmt/json"
             "\x7b\"d\":\x7b\"value\":\"42.00\",\"date\":\"2016/07/19\",\"time\":\"15:55:29\"\x7d\x7d"] ∧
    pollCycle payloadHost boilerConfig (frameInput (frameWith 4 0x80 [0, 0, 1]))
        (LoopState.mk 0 "") = Outcome.fault := by
  decide

theorem asInt32_small (s : Nat) (h : s < 2 ^ 31) : asInt32 s = (s : Int) := by
  unfold asInt32
  have h1 : s % 2 ^ 32 = s := Nat.mod_eq_of_lt (by omega)
  rw [h1, if_pos h]
  rfl

/-- The value text of a value-carrying frame of length 4 whose time value is
below one day. -/
theorem decodeValue_time_text (h : Host) (f : CEMIFRAME) (buffer : String) (ltime : Option tm)
    (hv : f.apci &&& (0x0080 ||| 0x0040) ≠ 0) (hlen : f.length = 4)
    (hr : h.p_int 3 f < 86400) :
    (decodeValue h f buffer ltime).buffer
      = twoDigits (h.p_int 3 f / 3600) ++ ":" ++ twoDigits (h.p_int 3 f % 3600 / 60) ++ ":"
          ++ twoDigits (h.p_int 3 f % 3600 % 60) := by
  have c1 : (3600 : Int) = ((3600 : Nat) : Int) := rfl
  have c2 : (60 : Int) = ((60 : Nat) : Int) := rfl
  simp only [decodeValue, if_pos hv, hlen]
  rw [asInt32_small _ (by omega), c1, c2, ← Int.ofNat_tdiv, ← Int.ofNat_tmod, ← Int.ofNat_tdiv,
    ← Int.ofNat_tmod, printf_0d_two _ (by omega), printf_0d_two _ (by omega),
    printf_0d_two _ (by omega)]

/-- C13: for a value-carrying frame of length 4 whose decoded seconds value `s`
is below 86400, hour, minute and second are `s / 3600`, `s % 3600 / 60` and
`s % 3600 % 60`; they are below 24, 60 and 60 and recompose to `s`; the value
text is the zero-padded `HH:MM:SS` of the three numbers, and it is the value
text of the payload published for a matched frame. -/
theorem time_of_day_rendering (h : Host) (f : CEMIFRAME) (buffer : String) (ltime : Option tm)
    (s : Nat) (hv : f.apci &&& (0x0080 ||| 0x0040) ≠ 0) (hlen : f.length = 4)
    (hs : h.p_int 3 f = s) (hr : s < 86400) :
    s / 3600 < 24 ∧ s % 3600 / 60 < 60 ∧ s % 3600 % 60 < 60 ∧
    s / 3600 * 3600 + s % 3600 / 60 * 60 + s % 3600 % 60 = s ∧
    (decodeValue h f buffer ltime).buffer
      = twoDigits (s / 3600) ++ ":" ++ twoDigits (s % 3600 / 60) ++ ":"
          ++ twoDigits (s % 3600 % 60) ∧
    (∀ (c : config) (inp : CycleInput) (st : LoopState) (received lt : tm) (actual : device),
      inp.monitor = Except.ok f → h.localtime inp.tv_sec = some received →
      findByGroupAddress c.devicelist (knx_group h.littleEndian f.daddr) = Lookup.found actual →
      h.localtime (h.p_time f) = some lt →
      Event.publish (buildTopic actual)
          (buildPayload (twoDigits (s / 3600) ++ ":" ++ twoDigits (s % 3600 / 60) ++ ":"
            ++ twoDigits (s % 3600 % 60)) lt)
        ∈ (pollCycle h c inp st).trace) := by
  subst hs
  refine ⟨by omega, by omega, by omega, by omega,
    decodeValue_time_text h f buffer ltime hv hlen hr, ?_⟩
  intro c inp st received lt actual hmon htime hfind hdate
  have hlt : (decodeValue h f st.buffer (some received)).ltime = some lt := by
    rw [(decodeValue_ltime h f st.buffer (some received)).1 hv hlen, hdate]
  have hreport : ∀ e ∈ (match (decodeValue h f st.buffer (some received)).eis_types with
      | none => []
      | some t => [Event.eis_types t]), ∃ x, e = Event.eis_types x := by
    intro e he
    cases hd : (decodeValue h f st.buffer (some received)).eis_types with
    | none => rw [hd] at he; exact absurd he (List.not_mem_nil e)
    | some x => rw [hd] at he; exact ⟨x, by simpa using he⟩
  have hm := (publishRetry_message inp (buildTopic actual)
    (buildPayload (decodeValue h f st.buffer (some received)).buffer lt)
    { count := st.count + 1, buffer := timeText lt } _ hreport).1
  rw [← pollCycle_matched h c inp st f received lt actual hmon htime hfind hlt,
    decodeValue_time_text h f st.buffer (some received) hv hlen hr] at hm
  exact hm

/-- Witness of C13: the value 3661 seconds renders as `01:01:01`. -/
theorem time_of_day_rendering_witness :
    (decodeValue payloadHost (frameWith 4 0x80 [0, 14, 77]) "" none).buffer = "01:01:01" :=
  (time_of_day_rendering payloadHost (frameWith 4 0x80 [0, 14, 77]) "" none 3661
    (by decide) rfl (by decide) (by decide)).2.2.2.2.1

/-! ## Properties: carried-over value -/

theorem string_append_left_cancel (p a b : String) (h : p ++ a = p ++ b) : a = b := by
  have hd := congrArg String.data h
  simp only [String.data_append] at hd
  exact String.ext (List.append_cancel_left hd)

theorem string_append_right_cancel (a b q : String) (h : a ++ q = b ++ q) : a = b := by
  have hd := congrArg String.data h
  simp only [String.data_append] at hd
  exact String.ext (List.append_cancel_right hd)

/-- Two payloads built for the same time differ as soon as their value texts differ. -/
theorem buildPayload_injective (b1 b2 : String) (lt : tm)
    (h : buildPayload b1 lt = buildPayload b2 lt) : b1 = b2 := by
  simp only [buildPayload, String.append_assoc] at h
  exact string_append_right_cancel _ _ _ (string_append_left_cancel _ _ _ h)

/-- When no value is decoded the value switch leaves the shared buffer and the
time pointer as they were. -/
theorem decodeValue_keeps (h : Host) (f : CEMIFRAME) (buffer : String) (ltime : Option tm)
    (hnov : f.apci &&& (0x0080 ||| 0x0040) = 0 ∨
      (f.length ≠ 1 ∧ f.length ≠ 2 ∧ f.length ≠ 3 ∧ f.length ≠ 4 ∧ f.length ≠ 5)) :
    (decodeValue h f buffer ltime).buffer = buffer ∧
    (decodeValue h f buffer ltime).ltime = ltime := by
  by_cases hv : f.apci &&& (0x0080 ||| 0x0040) = 0
  · rw [decodeValue_no_value h f buffer ltime hv]
    exact ⟨rfl, rfl⟩
  · rcases hnov with hc | ⟨h1, h2, h3, h4, h5⟩
    · exact absurd hc hv
    · constructor <;> simp only [decodeValue, if_pos hv]

/-- A publish with retry that returns hands back the state it was given. -/
theorem publishRetry_done (inp : CycleInput) (topic payload : String) (st s : LoopState)
    (pre t : List Event)
    (h : Outcome.after pre (publishRetry inp topic payload st) = Outcome.done s t) : s = st := by
  unfold publishRetry at h
  split_ifs at h <;> simp only [Outcome.after] at h <;> first
    | (injection h with h1 _; exact h1.symm)
    | exact absurd h (by simp)

/-- A pass that publishes and returns leaves the time text of that publish in
the shared buffer. -/
theorem pollCycle_matched_buffer (h : Host) (c : config) (inp : CycleInput) (st s : LoopState)
    (frame : CEMIFRAME) (received lt : tm) (actual : device) (t : List Event)
    (hmon : inp.monitor = Except.ok frame) (htime : h.localtime inp.tv_sec = some received)
    (hfind : findByGroupAddress c.devicelist (knx_group h.littleEndian frame.daddr)
      = Lookup.found actual)
    (hlt : (decodeValue h frame st.buffer (some received)).ltime = some lt)
    (hdone : pollCycle h c inp st = Outcome.done s t) :
    s.buffer = timeText lt ∧ s.count = st.count + 1 := by
  rw [pollCycle_matched h c inp st frame received lt actual hmon htime hfind hlt] at hdone
  rw [publishRetry_done _ _ _ _ _ _ _ hdone]
  exact ⟨rfl, rfl⟩

theorem findByGroupAddress_notFound (l : List device) (k : String)
    (h : findByGroupAddress l k = Lookup.notFound) :
    ∃ a, scanKnx k l = some a ∧ a.knx ≠ k := by
  unfold findByGroupAddress at h
  cases hs : scanKnx k l with
  | none => rw [hs] at h; exact absurd h (by simp)
  | some a =>
    rw [hs] at h
    by_cases hk : a.knx = k
    · simp only [if_pos hk] at h
      exact absurd h (by simp)
    · exact ⟨a, rfl, hk⟩

/-- A silent pass that returns leaves the shared buffer as it was. -/
theorem silentPass_keeps_buffer (h : Host) (c : config) (inp : CycleInput) (st s : LoopState)
    (t : List Event) (hq : silentPass h c inp) (hdone : pollCycle h c inp st = Outcome.done s t) :
    s.buffer = st.buffer := by
  unfold silentPass at hq
  cases hm : inp.monitor with
  | error e =>
    simp only [pollCycle, hm] at hdone
    cases e <;> simp only [monitorError] at hdone <;> first
      | (injection hdone with h1 _; rw [← h1])
      | exact absurd hdone (by simp)
  | ok f =>
    rw [hm] at hq
    obtain ⟨hnov, hmiss⟩ := hq
    obtain ⟨a, hs, hk⟩ := findByGroupAddress_notFound _ _ hmiss
    simp only [pollCycle, hm] at hdone
    cases ht : h.localtime inp.tv_sec with
    | none => rw [ht] at hdone; exact absurd hdone (by simp)
    | some received =>
      rw [ht] at hdone
      simp only [hs, if_neg hk] at hdone
      injection hdone with h1 _
      rw [← h1]
      exact (decodeValue_keeps h f st.buffer (some received) hnov).1

/-- A run of silent passes leaves the shared buffer as it was. -/
theorem runPasses_keeps_buffer (h : Host) (c : config) (passes : List CycleInput)
    (st s : LoopState) (hq : ∀ i ∈ passes, silentPass h c i)
    (hrun : runPasses h c passes st = some s) : s.buffer = st.buffer := by
  induction passes generalizing st with
  | nil =>
    simp only [runPasses, Option.some.injEq] at hrun
    rw [hrun]
  | cons inp rest ih =>
    simp only [runPasses] at hrun
    cases hp : pollCycle h c inp st with
    | fault => rw [hp] at hrun; exact absurd hrun (by simp)
    | exited a t => rw [hp] at hrun; exact absurd hrun (by simp)
    | done s1 t =>
      rw [hp] at hrun
      rw [ih s1 (fun i hi => hq i (List.mem_cons_of_mem _ hi)) hrun]
      exact silentPass_keeps_buffer h c inp st s1 t (hq inp (List.mem_cons_self _ _)) hp

/-- C14, as stated: a first pass publishes; a second pass brings a value frame
for an address without a record, which leaves the text `0` in the shared
buffer; the third pass, a group read for the registered address, is published
with the value `0`, which is not the time text of the earlier publish. -/
theorem stale_value_after_unmatched_frame :
    mainLoop sampleHost boilerConfig (-1)
        [frameInput sampleFrame, frameInput unregisteredFrame,
         frameInput (frameWith 1 0x00 [])] (LoopState.mk 0 "")
      = Outcome.done (LoopState.mk 3 "15:55:29")
          [Event.eis_types "5, 10",
           Event.publish "iot-2/type/Temperature/id/Boiler/evt/Measurement/fmt/json"
             "\x7b\"d\":\x7b\"value\":\"42.00\",\"date\":\"2016/07/19\",\"time\":\"15:55:29\"\x7d\x7d",
           Event.eis_types "1, 2, 7, 8",
           Event.publish "iot-2/type/Temperature/id/Boiler/evt/Measurement/fmt/json"
             "\x7b\"d\":\x7b\"value\":\"0\",\"date\":\"2016/07/19\",\"time\":\"15:55:29\"\x7d\x7d"] := by
  decide

/-- C14, amended: when a frame matches a registered device and no value is
decoded for it (its APCI byte has neither the write bit nor the response bit,
or its length byte is none of 1 to 5), the pass still publishes, and the value
text of every payload it publishes is the text the shared buffer held when the
pass began. When the last pass that published was followed only by passes that
decoded no value and published nothing, that text is the `HH:MM:SS` time text
of that publish. The published value is not determined by the frame: the same
frame on another buffer content publishes another payload. -/
theorem carried_over_value (h : Host) (c : config) (inp : CycleInput) (st : LoopState)
    (f : CEMIFRAME) (received : tm) (actual : device)
    (hmon : inp.monitor = Except.ok f) (htime : h.localtime inp.tv_sec = some received)
    (hfind : findByGroupAddress c.devicelist (knx_group h.littleEndian f.daddr)
      = Lookup.found actual)
    (hnov : f.apci &&& (0x0080 ||| 0x0040) = 0 ∨
      (f.length ≠ 1 ∧ f.length ≠ 2 ∧ f.length ≠ 3 ∧ f.length ≠ 4 ∧ f.length ≠ 5)) :
    Event.publish (buildTopic actual) (buildPayload st.buffer received)
      ∈ (pollCycle h c inp st).trace ∧
    (∀ t p, Event.publish t p ∈ (pollCycle h c inp st).trace →
      p = buildPayload st.buffer received) ∧
    (∀ (inp0 : CycleInput) (st0 st1 : LoopState) (f0 : CEMIFRAME) (r0 lt0 : tm) (a0 : device)
      (t0 : List Event) (between : List CycleInput),
      inp0.monitor = Except.ok f0 → h.localtime inp0.tv_sec = some r0 →
      findByGroupAddress c.devicelist (knx_group h.littleEndian f0.daddr) = Lookup.found a0 →
      (decodeValue h f0 st0.buffer (some r0)).ltime = some lt0 →
      pollCycle h c inp0 st0 = Outcome.done st1 t0 →
      (∀ i ∈ between, silentPass h c i) → runPasses h c between st1 = some st →
      st.buffer = timeText lt0 ∧
      Event.publish (buildTopic actual) (buildPayload (timeText lt0) received)
        ∈ (pollCycle h c inp st).trace) ∧
    (∀ st2 : LoopState, st2.buffer ≠ st.buffer →
      Event.publish (buildTopic actual) (buildPayload st2.buffer received)
        ∈ (pollCycle h c inp st2).trace ∧
      buildPayload st2.buffer received ≠ buildPayload st.buffer received) := by
  have hnot : f.apci &&& (0x0080 ||| 0x0040) = 0 ∨ f.length ≠ 4 := by
    rcases hnov with hc | ⟨_, _, _, h4, _⟩
    · exact Or.inl hc
    · exact Or.inr h4
  have main : ∀ s : LoopState,
      Event.publish (buildTopic actual) (buildPayload s.buffer received)
        ∈ (pollCycle h c inp s).trace ∧
      ∀ t p, Event.publish t p ∈ (pollCycle h c inp s).trace →
        p = buildPayload s.buffer received := by
    intro s
    have hr := receive_time_published h c inp s f received actual hmon htime hfind hnot
    rw [(decodeValue_keeps h f s.buffer (some received) hnov).1] at hr
    exact hr
  refine ⟨(main st).1, (main st).2, ?_, ?_⟩
  · intro inp0 st0 st1 f0 r0 lt0 a0 t0 between hmon0 htime0 hfind0 hlt0 hdone0 hq hrun
    have hb1 := (pollCycle_matched_buffer h c inp0 st0 st1 f0 r0 lt0 a0 t0 hmon0 htime0 hfind0
      hlt0 hdone0).1
    have hb : st.buffer = timeText lt0 := by
      rw [runPasses_keeps_buffer h c between st1 st hq hrun, hb1]
    refine ⟨hb, ?_⟩
    rw [← hb]
    exact (main st).1
  · intro st2 hne
    exact ⟨(main st2).1, fun he => hne (buildPayload_injective _ _ _ he)⟩

/-- Witness of C14 amended: a publish of the sample frame, then a timeout, then
a group read (APCI byte 0) for the registered address `0/0/5`: the read is
published with the time text `15:55:29` of the first publish as its value. -/
theorem carried_over_value_witness :
    Event.publish "iot-2/type/Temperature/id/Boiler/evt/Measurement/fmt/json"
        "\x7b\"d\":\x7b\"value\":\"15:55:29\",\"date\":\"2016/07/19\",\"time\":\"15:55:29\"\x7d\x7d"
      ∈ (pollCycle sampleHost boilerConfig (frameInput (frameWith 1 0x00 []))
          (LoopState.mk 1 "15:55:29")).trace :=
  ((carried_over_value sampleHost boilerConfig (frameInput (frameWith 1 0x00 []))
    (LoopState.mk 1 "15:55:29") (frameWith 1 0x00 []) (tm.mk 29 55 15 19 6 116)
    (device.mk "0/0/5" "Boiler" "Temperature" "Measurement")
    rfl rfl (by decide) (Or.inl (by decide))).2.2.1
    (frameInput sampleFrame) (LoopState.mk 0 "") (LoopState.mk 1 "15:55:29") sampleFrame
    (tm.mk 29 55 15 19 6 116) (tm.mk 29 55 15 19 6 116)
    (device.mk "0/0/5" "Boiler" "Temperature" "Measurement")
    [Event.eis_types "5, 10",
     Event.publish "iot-2/type/Temperature/id/Boiler/evt/Measurement/fmt/json"
       "\x7b\"d\":\x7b\"value\":\"42.00\",\"date\":\"2016/07/19\",\"time\":\"15:55:29\"\x7d\x7d"]
    [errorInput EnmxError.ENMX_E_TIMEOUT]
    rfl rfl (by decide) (by decide) (by decide)
    (by
      intro i hi
      have hi2 : i = errorInput EnmxError.ENMX_E_TIMEOUT := by simpa using hi
      rw [hi2]
      exact trivial)
    (by decide)).2

/-! ## Properties: key collisions of the formatters -/

/-- On a little-endian host `ntohs` exchanges the two bytes. -/
theorem ntohs_swap (x : Nat) : ntohs true x = 256 * (x % 256) + x / 256 % 256 := by
  have e1 : x &&& 0xff = x % 2 ^ 8 := Nat.and_pow_two_sub_one_eq_mod x 8
  have e2 : (x >>> 8) &&& 0xff = x >>> 8 % 2 ^ 8 := Nat.and_pow_two_sub_one_eq_mod (x >>> 8) 8
  have hlt : x >>> 8 % 2 ^ 8 < 2 ^ 8 := Nat.mod_lt _ (by norm_num)
  simp only [ntohs, if_true, e1, e2, Nat.shiftLeft_eq]
  rw [Nat.mul_comm (x % 2 ^ 8) (2 ^ 8), ← Nat.mul_add_lt_is_or hlt, Nat.shiftRight_eq_div_pow]
  omega

theorem ntohs_injective (le : Bool) (a b : Nat) (ha : a < 65536) (hb : b < 65536)
    (h : ntohs le a = ntohs le b) : a = b := by
  cases le with
  | false => simpa [ntohs] using h
  | true =>
    rw [ntohs_swap, ntohs_swap] at h
    omega

/-- A text is cut at its first separator in one way only. -/
theorem append_sep_inj (sep : Char) (A A1 R R1 : List Char) (hA : sep ∉ A) (hA1 : sep ∉ A1)
    (h : A ++ sep :: R = A1 ++ sep :: R1) : A = A1 ∧ R = R1 := by
  induction A generalizing A1 with
  | nil =>
    cases A1 with
    | nil => exact ⟨rfl, by simpa using h⟩
    | cons x xs =>
      simp only [List.nil_append, List.cons_append, List.cons.injEq] at h
      exact absurd (h.1 ▸ List.mem_cons_self _ _) hA1
  | cons a as ih =>
    cases A1 with
    | nil =>
      simp only [List.nil_append, List.cons_append, List.cons.injEq] at h
      exact absurd (h.1 ▸ List.mem_cons_self _ _) hA
    | cons x xs =>
      simp only [List.cons_append, List.cons.injEq] at h
      obtain ⟨r1, r2⟩ := ih xs (fun hm => hA (List.mem_cons_of_mem _ hm))
        (fun hm => hA1 (List.mem_cons_of_mem _ hm)) h.2
      exact ⟨by rw [h.1, r1], r2⟩

set_option maxRecDepth 100000 in
theorem decimalValue_repr : ∀ n < 256, decimalValue (Nat.repr n).data = n := by decide

set_option maxRecDepth 100000 in
theorem repr_no_separator :
    ∀ n < 256, '/' ∉ (Nat.repr n).data ∧ '.' ∉ (Nat.repr n).data := by decide

theorem repr_injective_small (m n : Nat) (hm : m < 256) (hn : n < 256)
    (h : Nat.repr m = Nat.repr n) : m = n := by
  rw [← decimalValue_repr m hm, ← decimalValue_repr n hn, h]

/-- Three numbers below 256 joined by a separator that is no digit are
recovered from the joined text. -/
theorem joined_injective (sep : Char) (t s g t1 s1 g1 : Nat)
    (ht : t < 256) (hs : s < 256) (hg : g < 256) (ht1 : t1 < 256) (hs1 : s1 < 256)
    (hg1 : g1 < 256) (hsep : ∀ n < 256, sep ∉ (Nat.repr n).data)
    (h : Nat.repr t ++ String.mk [sep] ++ Nat.repr s ++ String.mk [sep] ++ Nat.repr g
      = Nat.repr t1 ++ String.mk [sep] ++ Nat.repr s1 ++ String.mk [sep] ++ Nat.repr g1) :
    t = t1 ∧ s = s1 ∧ g = g1 := by
  have hd := congrArg String.data h
  simp only [String.data_append, List.append_assoc, List.singleton_append] at hd
  obtain ⟨e1, r1⟩ := append_sep_inj sep _ _ _ _ (hsep t ht) (hsep t1 ht1) hd
  obtain ⟨e2, r2⟩ := append_sep_inj sep _ _ _ _ (hsep s hs) (hsep s1 hs1) r1
  exact ⟨repr_injective_small t t1 ht ht1 (String.ext e1),
    repr_injective_small s s1 hs hs1 (String.ext e2),
    repr_injective_small g g1 hg hg1 (String.ext r2)⟩

/-- C15: for 16-bit addresses `a` and `b`, `knx_group` gives the same text
exactly when the addresses agree in their low 15 bits after `ntohs`: addresses
that differ in bit 15 only give the same text, and therefore the same lookup
result in every registry, and addresses that differ in the low 15 bits give
different texts; `knx_physical` gives the same text only for equal addresses. -/
theorem formatter_key_collisions (le : Bool) (a b : Nat) (ha : a < 65536) (hb : b < 65536) :
    (knx_group le a = knx_group le b ↔ ntohs le a % 2 ^ 15 = ntohs le b % 2 ^ 15) ∧
    (ntohs le a % 2 ^ 15 = ntohs le b % 2 ^ 15 →
      ∀ l : List device,
        findByGroupAddress l (knx_group le a) = findByGroupAddress l (knx_group le b)) ∧
    (knx_physical le a = knx_physical le b ↔ a = b) := by
  have hsl : ∀ n < 256, '/' ∉ (Nat.repr n).data := fun n hn => (repr_no_separator n hn).1
  have hdot : ∀ n < 256, '.' ∉ (Nat.repr n).data := fun n hn => (repr_no_separator n hn).2
  have hgroup : knx_group le a = knx_group le b ↔ ntohs le a % 2 ^ 15 = ntohs le b % 2 ^ 15 := by
    rw [knx_group_eq, knx_group_eq]
    constructor
    · intro h
      obtain ⟨e1, e2, e3⟩ := joined_injective '/' _ _ _ _ _ _ (by omega) (by omega) (by omega)
        (by omega) (by omega) (by omega) hsl h
      omega
    · intro h
      have e1 : ntohs le a / 2 ^ 11 % 2 ^ 4 = ntohs le b / 2 ^ 11 % 2 ^ 4 := by omega
      have e2 : ntohs le a / 2 ^ 8 % 2 ^ 3 = ntohs le b / 2 ^ 8 % 2 ^ 3 := by omega
      have e3 : ntohs le a % 2 ^ 8 = ntohs le b % 2 ^ 8 := by omega
      rw [e1, e2, e3]
  refine ⟨hgroup, ?_, ?_⟩
  · intro h l
    rw [hgroup.mpr h]
  · constructor
    · intro h
      rw [knx_physical_eq, knx_physical_eq] at h
      have hna := ntohs_lt le a ha
      have hnb := ntohs_lt le b hb
      obtain ⟨e1, e2, e3⟩ := joined_injective '.' _ _ _ _ _ _ (by omega) (by omega) (by omega)
        (by omega) (by omega) (by omega) hdot h
      exact ntohs_injective le a b ha hb (by omega)
    · intro h
      rw [h]

/-- Witness of C15: on a little-endian host the loaded values `0x0500` and
`0x0580` are the addresses `0x0005` and `0x8005`, which differ in bit 15 only,
and both render as `0/0/5`. -/
theorem formatter_key_collisions_witness :
    knx_group true 0x0500 = knx_group true 0x0580 :=
  (formatter_key_collisions true 0x0500 0x0580 (by decide) (by decide)).1.mpr (by decide)

end BluehomeEib
